import Mathlib

/-!
Verification of the PTT Alertor subscription, statistics, article and
binding subsystems, shallowly embedded from the Go sources.  Database
tables are modelled as Lean lists (or, for the counter table keyed by a
UNIQUE constraint, as a total map with default 0), SQL statements as pure
functions on them, and fallible operations as Except values.
-/

namespace PttAlertor

/-! ## subscription_stats table

The table has a UNIQUE (board, sub_type, value) key.  It is modelled as a
total map from that key to the count; a key with no row reads as count 0,
which matches both the SQL INSERT ... ON CONFLICT upsert (a missing key is
inserted with count 1) and the UPDATE ... GREATEST(count - 1, 0) (a missing
key is not touched and keeps reading 0). -/

abbrev StatKey := String × String × String

abbrev Stats := StatKey → Int

def Stats.empty : Stats := fun _ => 0

/-- SubscriptionStatsPostgres.Increment / top.Postgres.Increment:
INSERT ... VALUES (board, sub_type, value, 1) ON CONFLICT DO UPDATE SET
count = count + 1. -/
def Stats.increment (st : Stats) (board subType value : String) : Stats :=
  fun k => if k = (board, subType, value) then st k + 1 else st k

/-- SubscriptionStatsPostgres.Decrement / top.Postgres.Decrement:
UPDATE subscription_stats SET count = GREATEST(count - 1, 0) WHERE board,
sub_type and value match. -/
def Stats.decrement (st : Stats) (board subType value : String) : Stats :=
  fun k => if k = (board, subType, value) then max (st k - 1) 0 else st k

/-- IncrementBatch: Increment once per element of values, in order. -/
def Stats.incrementBatch (st : Stats) (board subType : String) (values : List String) : Stats :=
  values.foldl (fun s v => s.increment board subType v) st

/-- DecrementBatch: Decrement once per element of values, in order. -/
def Stats.decrementBatch (st : Stats) (board subType : String) (values : List String) : Stats :=
  values.foldl (fun s v => s.decrement board subType v) st

/-- Number of elements of values whose key (board, subType, element)
equals k: the multiplicity with which a batch over values touches k. -/
def occurrences (board subType : String) (values : List String) (k : StatKey) : Nat :=
  match values with
  | [] => 0
  | v :: vs => (if (board, subType, v) = k then 1 else 0) + occurrences board subType vs k

/-! ## Keyword value parsing (subscription.go parseKeywordValues) -/

/-- Embeds Go strings.TrimSpace: leading and trailing whitespace removed,
computed on the character list of the string. -/
def trimSpace (s : String) : String :=
  ⟨((s.data.dropWhile Char.isWhitespace).reverse.dropWhile Char.isWhitespace).reverse⟩

/-- Embeds Go strings.HasPrefix, on the character lists. -/
def startsWithStr (s p : String) : Bool :=
  p.data.isPrefixOf s.data

/-- Splits a character list at every occurrence of the separator; the Go
strings.Split for a one-character separator. -/
def splitChar : List Char → Char → List (List Char)
  | [], _ => [[]]
  | x :: xs, c =>
    match splitChar xs c with
    | [] => [[x]]
    | h :: tl => if x = c then [] :: h :: tl else (x :: h) :: tl

/-- Embeds Go strings.Split s sep for a one-character separator sep. -/
def splitOnChar (s : String) (c : Char) : List String :=
  (splitChar s.data c).map (fun l => ⟨l⟩)

/-- parseKeywordValues: a value starting with an exclamation mark yields no
components; a value of the form regexp:p yields the pipe-separated,
trimmed, nonempty parts of p; a value containing an ampersand yields its
ampersand-separated, trimmed, nonempty parts; otherwise the value itself. -/
def parseKeywordValues (value : String) : List String :=
  if startsWithStr value "!" then
    []
  else if startsWithStr value "regexp:" then
    (((splitOnChar (⟨value.data.drop 7⟩ : String) '|').map trimSpace).filter (fun p => p ≠ ""))
  else if value.data.contains '&' then
    ((splitOnChar value '&').map trimSpace).filter (fun p => p ≠ "")
  else
    [value]

/-- syncStats: article subscriptions touch no counter; keyword values are
split into components; author and pushsum use the single value.  The flag
inc selects IncrementBatch or DecrementBatch. -/
def syncStats (st : Stats) (board subType value : String) (inc : Bool) : Stats :=
  if subType = "article" then st
  else
    let values := if subType = "keyword" then parseKeywordValues value else [value]
    if values = [] then st
    else if inc then Stats.incrementBatch st board subType values
    else Stats.decrementBatch st board subType values

/-- The list of stat components a (subType, value) pair contributes,
as computed by syncStats. -/
def componentValues (subType value : String) : List String :=
  if subType = "article" then []
  else if subType = "keyword" then parseKeywordValues value
  else [value]

/-! ## Batch lemmas -/

theorem increment_apply (st : Stats) (b t v : String) (k : StatKey) :
    Stats.increment st b t v k = if k = (b, t, v) then st k + 1 else st k := rfl

theorem decrement_apply (st : Stats) (b t v : String) (k : StatKey) :
    Stats.decrement st b t v k = if k = (b, t, v) then max (st k - 1) 0 else st k := rfl

theorem incrementBatch_apply (b t : String) (values : List String) :
    ∀ (st : Stats) (k : StatKey),
      Stats.incrementBatch st b t values k = st k + occurrences b t values k := by
  induction values with
  | nil => intro st k; simp [Stats.incrementBatch, occurrences]
  | cons v vs ih =>
    intro st k
    show Stats.incrementBatch (Stats.increment st b t v) b t vs k = _
    rw [ih]
    rw [increment_apply]
    by_cases h : k = (b, t, v)
    · subst h
      simp [occurrences]
      omega
    · have h2 : ¬ (b, t, v) = k := fun hc => h hc.symm
      simp [occurrences, h, h2]

theorem decrementBatch_apply (b t : String) (values : List String) :
    ∀ (st : Stats),
      (∀ k : StatKey, (occurrences b t values k : Int) ≤ st k) →
      ∀ k : StatKey,
        Stats.decrementBatch st b t values k = st k - occurrences b t values k := by
  induction values with
  | nil => intro st _ k; simp [Stats.decrementBatch, occurrences]
  | cons v vs ih =>
    intro st hge k
    show Stats.decrementBatch (Stats.decrement st b t v) b t vs k = _
    have hv : (1 : Int) ≤ st (b, t, v) := by
      have := hge (b, t, v)
      simp [occurrences] at this
      omega
    have hstep : ∀ k' : StatKey, (occurrences b t vs k' : Int) ≤ Stats.decrement st b t v k' := by
      intro k'
      rw [decrement_apply]
      by_cases h : k' = (b, t, v)
      · subst h
        have := hge (b, t, v)
        simp [occurrences] at this ⊢
        omega
      · have h2 : ¬ (b, t, v) = k' := fun hc => h hc.symm
        have := hge k'
        simp [occurrences, h, h2] at this ⊢
        omega
    rw [ih _ hstep]
    rw [decrement_apply]
    by_cases h : k = (b, t, v)
    · subst h
      simp [occurrences]
      omega
    · have h2 : ¬ (b, t, v) = k := fun hc => h hc.symm
      simp [occurrences, h, h2]

theorem occurrences_nonneg (b t : String) (values : List String) (k : StatKey) :
    0 ≤ (occurrences b t values k : Int) := Int.natCast_nonneg _

/-- syncStats with inc = true adds exactly the multiplicity of each key in
the component list. -/
theorem syncStats_inc_apply (st : Stats) (b t v : String) (k : StatKey) :
    syncStats st b t v true k = st k + occurrences b t (componentValues t v) k := by
  unfold syncStats componentValues
  by_cases ha : t = "article"
  · simp [ha, occurrences]
  · simp only [ha, if_false]
    by_cases hk : t = "keyword"
    · simp only [hk, if_true, reduceIte]
      by_cases he : parseKeywordValues v = []
      · simp [he, occurrences]
      · simp only [he, if_false, reduceIte]
        exact incrementBatch_apply _ _ _ st k
    · simp only [hk, if_false, reduceIte]
      have : ¬ ([v] : List String) = [] := by simp
      simp only [this, if_false, reduceIte]
      exact incrementBatch_apply _ _ _ st k

/-- syncStats with inc = false subtracts exactly the multiplicity of each
key in the component list, provided the state dominates the multiplicities
(no clamping happens). -/
theorem syncStats_dec_apply (st : Stats) (b t v : String)
    (hge : ∀ k : StatKey, (occurrences b t (componentValues t v) k : Int) ≤ st k)
    (k : StatKey) :
    syncStats st b t v false k = st k - occurrences b t (componentValues t v) k := by
  unfold syncStats componentValues at *
  by_cases ha : t = "article"
  · simp [ha, occurrences]
  · simp only [ha, if_false] at *
    by_cases hk : t = "keyword"
    · simp only [hk, if_true, reduceIte] at *
      by_cases he : parseKeywordValues v = []
      · simp [he, occurrences]
      · simp only [he, if_false, reduceIte]
        exact decrementBatch_apply _ _ _ _ hge k
    · simp only [hk, if_false, reduceIte] at *
      have hne : ¬ ([v] : List String) = [] := by simp
      simp only [hne, if_false, reduceIte]
      exact decrementBatch_apply _ _ _ _ hge k

/-! ## Table rows -/

/-- A row of the subscriptions table (mail template columns omitted; they
play no role in the claims).  UNIQUE (user_id, board, sub_type, value). -/
structure SubRow where
  id : Nat
  userId : Nat
  board : String
  subType : String
  value : String
  enabled : Bool
deriving DecidableEq, Repr

/-- A row of the users table (password hash and timestamps omitted). -/
structure AccountRow where
  id : Nat
  email : String
  role : String
  enabled : Bool
deriving DecidableEq, Repr

/-- A row of the notification_bindings table.  UNIQUE (user_id, service)
and UNIQUE (service, service_id); expiry timestamps are modelled as Nat. -/
structure BindingRow where
  userId : Nat
  service : String
  serviceId : String
  bindCode : Option String
  bindCodeExpiresAt : Option Nat
  enabled : Bool
deriving DecidableEq, Repr

/-- A row of the role_limits table (description column omitted). -/
structure RoleLimitRow where
  role : String
  maxSubscriptions : Int
deriving DecidableEq, Repr

/-- The state the subscription service operates on: the relational store
(users, subscriptions, role_limits, subscription_stats), the set of boards
the upstream feed reports as existing (rss.CheckBoardExist), and the Redis
cache (boards set and per board and kind subscriber sets).  The
denormalized user profile that updateUserData rewrites is a projection of
the store and is modelled separately for the dispatcher claims. -/
structure SysState where
  accounts : List AccountRow
  bindings : List BindingRow
  roleLimits : List RoleLimitRow
  subs : List SubRow
  stats : Stats
  existingBoards : List String
  cacheBoards : List String
  subscriberSets : List (String × String × String)

/-! ## Redis set primitives -/

/-- SADD on a set modelled as a duplicate-free list. -/
def sadd {α : Type} [DecidableEq α] (s : List α) (x : α) : List α :=
  if x ∈ s then s else s ++ [x]

/-- SREM. -/
def srem {α : Type} [DecidableEq α] (s : List α) (x : α) : List α :=
  s.filter (fun y => y ≠ x)

/-- GetWebAccount: the Redis account key of a web user. -/
def getWebAccount (userId : Nat) : String := "web_" ++ toString userId

/-! ## Repository operations -/

/-- Errors surfaced by the subscription service (subscription.go). -/
inductive SubError where
  | accountNotFound
  | subscriptionNotFound
  | alreadyExists
  | limitReached
  | boardNotFound
  | dbError
deriving DecidableEq, Repr

/-- Postgres.FindByID on users. -/
def findAccountByID (accounts : List AccountRow) (id : Nat) : Option AccountRow :=
  accounts.find? (fun a => a.id == id)

/-- binding.Postgres.FindByUserAndService. -/
def findByUserAndService (bindings : List BindingRow) (userId : Nat) (service : String) :
    Option BindingRow :=
  bindings.find? (fun b => b.userId == userId && b.service == service)

/-- RoleLimitPostgres.GetMaxSubscriptions: SELECT max_subscriptions FROM
role_limits WHERE role = $1; on pgx.ErrNoRows the default 3 is returned
with no error. -/
def getMaxSubscriptions (roleLimits : List RoleLimitRow) (role : String) : Int :=
  match roleLimits.find? (fun rl => rl.role == role) with
  | some rl => rl.maxSubscriptions
  | none => 3

/-- RoleLimitPostgres.GetMaxSubscriptionsByServiceID: joins
notification_bindings, users and role_limits; when the join yields no row
(in particular for an unbound service identity) the default 3 is returned
with no error. -/
def getMaxSubscriptionsByServiceID (bindings : List BindingRow) (users : List AccountRow)
    (roleLimits : List RoleLimitRow) (service serviceId : String) : Int :=
  match bindings.find? (fun b => b.service == service && b.serviceId == serviceId) with
  | none => 3
  | some b =>
    match users.find? (fun u => u.id == b.userId) with
    | none => 3
    | some u =>
      match roleLimits.find? (fun rl => rl.role == u.role) with
      | none => 3
      | some rl => rl.maxSubscriptions

/-- SubscriptionPostgres.CountByUserID. -/
def countByUserID (subs : List SubRow) (userId : Nat) : Nat :=
  (subs.filter (fun s => s.userId == userId)).length

/-- SubscriptionPostgres.CheckLimit: a negative limit means unlimited;
otherwise the user count must be strictly below the limit. -/
def checkLimit (st : SysState) (userId : Nat) (role : String) : Except SubError Unit :=
  let maxSubs := getMaxSubscriptions st.roleLimits role
  if maxSubs < 0 then Except.ok ()
  else if (countByUserID st.subs userId : Int) ≥ maxSubs then Except.error SubError.limitReached
  else Except.ok ()

/-- The id the SERIAL column assigns to the next inserted subscription,
modelled as one more than the largest id in the table. -/
def nextSubId (subs : List SubRow) : Nat :=
  (subs.map (fun s => s.id)).foldr Nat.max 0 + 1

/-- SubscriptionPostgres.createInDB: INSERT INTO subscriptions; the
UNIQUE (user_id, board, sub_type, value) violation surfaces as
ErrSubscriptionExists; enabled defaults to true. -/
def createInDB (st : SysState) (userId : Nat) (board subType value : String) :
    Except SubError (SubRow × SysState) :=
  if st.subs.any (fun s =>
      s.userId == userId && s.board == board && s.subType == subType && s.value == value) then
    Except.error SubError.alreadyExists
  else
    let row : SubRow := ⟨nextSubId st.subs, userId, board, subType, value, true⟩
    Except.ok (row, { st with subs := st.subs ++ [row] })

/-- RedisSync.SyncSubscriptionCreate: a user without a confirmed telegram
binding is not synced; otherwise the board is SADDed to the boards set and
the web account to the subType:board:subs set (updateUserData then
rewrites the user profile, a pure projection of the store). -/
def syncSubscriptionCreate (st : SysState) (sub : SubRow) (accId : Nat) : SysState :=
  match findByUserAndService st.bindings accId "telegram" with
  | none => st
  | some tb =>
    if tb.serviceId = "" then st
    else
      { st with
        cacheBoards := sadd st.cacheBoards sub.board
        subscriberSets := sadd st.subscriberSets (sub.subType, sub.board, getWebAccount accId) }

/-- RedisSync.SyncSubscriptionDelete: when the user retains no other
subscription with the same board and kind, the web account is SREMed from
the subType:board:subs set.  Runs against the store after the row was
deleted. -/
def syncSubscriptionDelete (st : SysState) (sub : SubRow) (accId : Nat) : SysState :=
  if st.subs.any (fun s =>
      s.userId == accId && s.id != sub.id && s.board == sub.board && s.subType == sub.subType) then
    st
  else
    { st with
      subscriberSets := srem st.subscriberSets (sub.subType, sub.board, getWebAccount accId) }

/-- Step 6 of Create: increment the stat counters for the new values. -/
def applyCreateStats (st : SysState) (board subType value : String) : SysState :=
  { st with stats := syncStats st.stats board subType value true }

/-- Step 6 of Delete: decrement the stat counters of the deleted row. -/
def applyDeleteStats (st : SysState) (sub : SubRow) : SysState :=
  { st with stats := syncStats st.stats sub.board sub.subType sub.value false }

/-- SubscriptionPostgres.Create: look up the account, check the role
limit, validate the board against the feed probe, insert the row, then
sync the Redis cache and the stat counters. -/
def SubscriptionPostgres.create (st : SysState) (userId : Nat) (board subType value : String) :
    Except SubError (SubRow × SysState) :=
  match findAccountByID st.accounts userId with
  | none => Except.error SubError.accountNotFound
  | some acc =>
    match checkLimit st userId acc.role with
    | Except.error e => Except.error e
    | Except.ok _ =>
      if board ∉ st.existingBoards then Except.error SubError.boardNotFound
      else
        match createInDB st userId board subType value with
        | Except.error e => Except.error e
        | Except.ok (row, st₁) =>
          Except.ok (row,
            applyCreateStats (syncSubscriptionCreate st₁ row acc.id) board subType value)

/-- SubscriptionPostgres.Delete: find the row, check ownership, delete it,
then sync the Redis cache (when the account resolves) and decrement the
stat counters. -/
def SubscriptionPostgres.delete (st : SysState) (id userId : Nat) : Except SubError SysState :=
  match st.subs.find? (fun s => s.id == id) with
  | none => Except.error SubError.subscriptionNotFound
  | some sub =>
    if sub.userId ≠ userId then Except.error SubError.subscriptionNotFound
    else
      match findAccountByID st.accounts userId with
      | some acc =>
        Except.ok (applyDeleteStats
          (syncSubscriptionDelete
            { st with subs := st.subs.filter (fun s => !(s.id == id)) } sub acc.id) sub)
      | none =>
        Except.ok (applyDeleteStats
          { st with subs := st.subs.filter (fun s => !(s.id == id)) } sub)

/-- SubscriptionPostgres.Update: find the row, check ownership, validate
the board, rewrite the row (a UNIQUE violation aborts with the raw SQL
error before any sync), sync the Redis cache for the new values, then
decrement the old stat components and increment the new ones. -/
def SubscriptionPostgres.update (st : SysState) (id userId : Nat)
    (board subType value : String) (enabled : Bool) : Except SubError SysState :=
  match st.subs.find? (fun s => s.id == id) with
  | none => Except.error SubError.subscriptionNotFound
  | some sub =>
    if sub.userId ≠ userId then Except.error SubError.subscriptionNotFound
    else if board ∉ st.existingBoards then Except.error SubError.boardNotFound
    else if st.subs.any (fun s =>
        !(s.id == id) && s.userId == sub.userId && s.board == board &&
          s.subType == subType && s.value == value) then
      Except.error SubError.dbError
    else
      match findAccountByID st.accounts userId with
      | some acc =>
        Except.ok (applyCreateStats
          (applyDeleteStats
            (syncSubscriptionCreate
              { st with subs := st.subs.map (fun s =>
                  if s.id == id then (⟨sub.id, sub.userId, board, subType, value, enabled⟩ : SubRow)
                  else s) }
              ⟨sub.id, sub.userId, board, subType, value, enabled⟩ acc.id) sub)
          board subType value)
      | none =>
        Except.ok (applyCreateStats
          (applyDeleteStats
            { st with subs := st.subs.map (fun s =>
                if s.id == id then (⟨sub.id, sub.userId, board, subType, value, enabled⟩ : SubRow)
                else s) } sub)
          board subType value)

/-- The mutations of the subscription table, as exposed by the service. -/
inductive SubOp where
  | createOp (userId : Nat) (board subType value : String)
  | updateOp (id userId : Nat) (board subType value : String) (enabled : Bool)
  | deleteOp (id userId : Nat)

/-- Apply one mutation; a failed mutation leaves the state unchanged. -/
def applyOp (st : SysState) (op : SubOp) : SysState :=
  match op with
  | SubOp.createOp u b t v =>
    match SubscriptionPostgres.create st u b t v with
    | Except.ok (_, st') => st'
    | Except.error _ => st
  | SubOp.updateOp i u b t v e =>
    match SubscriptionPostgres.update st i u b t v e with
    | Except.ok st' => st'
    | Except.error _ => st
  | SubOp.deleteOp i u =>
    match SubscriptionPostgres.delete st i u with
    | Except.ok st' => st'
    | Except.error _ => st

/-- Apply a sequence of mutations in order. -/
def applyOps (st : SysState) (ops : List SubOp) : SysState :=
  ops.foldl applyOp st

/-- The HTTP status the REST controller CreateSubscription maps each
service error to. -/
def createSubscriptionStatus (e : SubError) : Nat :=
  match e with
  | SubError.alreadyExists => 409
  | SubError.limitReached => 403
  | SubError.boardNotFound => 400
  | _ => 500

/-! ## The stat-table invariant -/

/-- Multiplicity with which one subscription row contributes to key k. -/
def subContribution (s : SubRow) (k : StatKey) : Nat :=
  occurrences s.board s.subType (componentValues s.subType s.value) k

/-- Total contribution of a subscription table to key k. -/
def subsContribution (subs : List SubRow) (k : StatKey) : Int :=
  (subs.map (fun s => (subContribution s k : Int))).sum

/-- The SERIAL primary keys of a subscription table are pairwise distinct. -/
def GoodIds (subs : List SubRow) : Prop :=
  (subs.map (fun s => s.id)).Nodup

theorem subsContribution_nil (k : StatKey) : subsContribution [] k = 0 := rfl

theorem subsContribution_append (l₁ l₂ : List SubRow) (k : StatKey) :
    subsContribution (l₁ ++ l₂) k = subsContribution l₁ k + subsContribution l₂ k := by
  unfold subsContribution
  rw [List.map_append, List.sum_append]

theorem subsContribution_nonneg (l : List SubRow) (k : StatKey) :
    0 ≤ subsContribution l k := by
  unfold subsContribution
  apply List.sum_nonneg
  intro x hx
  obtain ⟨s, _, rfl⟩ := List.mem_map.mp hx
  exact Int.natCast_nonneg _

theorem mem_le_foldr_max (l : List Nat) (x : Nat) (hx : x ∈ l) :
    x ≤ l.foldr Nat.max 0 := by
  induction l with
  | nil => cases hx
  | cons a t ih =>
    rcases List.mem_cons.mp hx with h | h
    · subst h; exact Nat.le_max_left _ _
    · exact Nat.le_trans (ih h) (Nat.le_max_right _ _)

theorem nextSubId_fresh (subs : List SubRow) (s : SubRow) (hs : s ∈ subs) :
    s.id ≠ nextSubId subs := by
  intro h
  have : s.id ≤ (subs.map (fun s => s.id)).foldr Nat.max 0 :=
    mem_le_foldr_max _ _ (List.mem_map.mpr ⟨s, hs, rfl⟩)
  unfold nextSubId at h
  omega

theorem goodIds_append_fresh (subs : List SubRow) (row : SubRow)
    (h : GoodIds subs) (hfresh : ∀ s ∈ subs, s.id ≠ row.id) :
    GoodIds (subs ++ [row]) := by
  unfold GoodIds at *
  rw [List.map_append]
  rw [List.nodup_append]
  refine ⟨h, List.nodup_singleton _, ?_⟩
  intro x hx hx2
  simp only [List.map_cons, List.map_nil, List.mem_singleton] at hx2
  obtain ⟨s, hs, rfl⟩ := List.mem_map.mp hx
  exact hfresh s hs hx2

theorem goodIds_filter (subs : List SubRow) (p : SubRow → Bool) (h : GoodIds subs) :
    GoodIds (subs.filter p) := by
  unfold GoodIds at *
  exact ((List.filter_sublist subs).map _).nodup h

theorem subsContribution_cons (b : SubRow) (t : List SubRow) (k : StatKey) :
    subsContribution (b :: t) k = subContribution b k + subsContribution t k := by
  unfold subsContribution
  simp

/-- Removing the row found by id from a table with distinct ids removes
exactly its contribution. -/
theorem subsContribution_filter_of_find (i : Nat) (sub : SubRow) (k : StatKey) :
    ∀ subs : List SubRow, GoodIds subs →
      subs.find? (fun s => s.id == i) = some sub →
      subsContribution (subs.filter (fun s => !(s.id == i))) k =
        subsContribution subs k - subContribution sub k := by
  intro subs
  induction subs with
  | nil => intro _ hfind; simp at hfind
  | cons a l ih =>
    intro hnodup hfind
    have hnodup' : GoodIds l := by
      unfold GoodIds at *
      exact (List.nodup_cons.mp hnodup).2
    by_cases ha : a.id = i
    · have hpa : (a.id == i) = true := by simp [ha]
      simp only [List.find?_cons, hpa] at hfind
      injection hfind with hsub
      subst hsub
      have hfl : l.filter (fun s => !(s.id == i)) = l := by
        apply List.filter_eq_self.mpr
        intro s hs
        have hne : s.id ≠ a.id := by
          intro hc
          have hmem : a.id ∉ l.map (fun s => s.id) := (List.nodup_cons.mp hnodup).1
          exact hmem (List.mem_map.mpr ⟨s, hs, hc⟩)
        have : ¬ s.id = i := by omega
        simp [this]
      have hstep : (a :: l).filter (fun s => !(s.id == i)) = l.filter (fun s => !(s.id == i)) := by
        rw [List.filter_cons]
        simp [ha]
      rw [hstep, hfl, subsContribution_cons]
      omega
    · have hpa : (a.id == i) = false := by simp [ha]
      simp only [List.find?_cons, hpa] at hfind
      have hstep : (a :: l).filter (fun s => !(s.id == i)) =
          a :: l.filter (fun s => !(s.id == i)) := by
        rw [List.filter_cons]
        simp [ha]
      rw [hstep, subsContribution_cons, subsContribution_cons, ih hnodup' hfind]
      omega

/-- Rewriting the row found by id (keeping its id) replaces exactly its
contribution. -/
theorem subsContribution_map_update (i : Nat) (sub newRow : SubRow) (k : StatKey) :
    ∀ subs : List SubRow, GoodIds subs →
      subs.find? (fun s => s.id == i) = some sub →
      subsContribution (subs.map (fun s => if s.id == i then newRow else s)) k =
        subsContribution subs k - subContribution sub k + subContribution newRow k := by
  intro subs
  induction subs with
  | nil => intro _ hfind; simp at hfind
  | cons a l ih =>
    intro hnodup hfind
    have hnodup' : GoodIds l := by
      unfold GoodIds at *
      exact (List.nodup_cons.mp hnodup).2
    by_cases ha : a.id = i
    · have hpa : (a.id == i) = true := by simp [ha]
      simp only [List.find?_cons, hpa] at hfind
      injection hfind with hsub
      subst hsub
      have hfl : l.map (fun s => if s.id == i then newRow else s) = l := by
        apply List.map_congr_left ?_ |>.trans (List.map_id l)
        intro s hs
        have hne : s.id ≠ a.id := by
          intro hc
          have hmem : a.id ∉ l.map (fun s => s.id) := (List.nodup_cons.mp hnodup).1
          exact hmem (List.mem_map.mpr ⟨s, hs, hc⟩)
        have : ¬ s.id = i := by omega
        simp [this]
      rw [List.map_cons, hfl]
      have hif : (if (a.id == i) = true then newRow else a) = newRow := by simp [ha]
      simp only [hif]
      rw [subsContribution_cons, subsContribution_cons]
      omega
    · have hpa : (a.id == i) = false := by simp [ha]
      simp only [List.find?_cons, hpa] at hfind
      rw [List.map_cons]
      have hif : (if (a.id == i) = true then newRow else a) = a := by simp [ha]
      simp only [hif]
      rw [subsContribution_cons, subsContribution_cons, ih hnodup' hfind]
      omega


theorem goodIds_map_update (subs : List SubRow) (i : Nat) (newRow : SubRow)
    (hid : newRow.id = i) (h : GoodIds subs) :
    GoodIds (subs.map (fun s => if s.id == i then newRow else s)) := by
  unfold GoodIds at *
  rw [List.map_map]
  have : ∀ s ∈ subs,
      ((fun s : SubRow => s.id) ∘ fun s => if s.id == i then newRow else s) s
        = (fun s : SubRow => s.id) s := by
    intro s _
    by_cases hs : s.id = i
    · simp [Function.comp, hs, hid]
    · simp [Function.comp, hs]
  rw [List.map_congr_left this]
  exact h

/-! ## Characterizations of the service operations -/

theorem syncSubscriptionCreate_subs (st : SysState) (sub : SubRow) (a : Nat) :
    (syncSubscriptionCreate st sub a).subs = st.subs := by
  unfold syncSubscriptionCreate
  split
  · rfl
  · split <;> rfl

theorem syncSubscriptionCreate_stats (st : SysState) (sub : SubRow) (a : Nat) :
    (syncSubscriptionCreate st sub a).stats = st.stats := by
  unfold syncSubscriptionCreate
  split
  · rfl
  · split <;> rfl

theorem syncSubscriptionDelete_subs (st : SysState) (sub : SubRow) (a : Nat) :
    (syncSubscriptionDelete st sub a).subs = st.subs := by
  unfold syncSubscriptionDelete
  split <;> rfl

theorem syncSubscriptionDelete_stats (st : SysState) (sub : SubRow) (a : Nat) :
    (syncSubscriptionDelete st sub a).stats = st.stats := by
  unfold syncSubscriptionDelete
  split <;> rfl

/-- A successful Create inserted exactly the fresh row at the end of the
table and ran syncStats once with increment. -/
theorem create_ok (st : SysState) (u : Nat) (b t v : String) (row : SubRow) (st' : SysState)
    (h : SubscriptionPostgres.create st u b t v = Except.ok (row, st')) :
    row = ⟨nextSubId st.subs, u, b, t, v, true⟩ ∧
    st'.subs = st.subs ++ [row] ∧
    st'.stats = syncStats st.stats b t v true := by
  unfold SubscriptionPostgres.create at h
  split at h
  · exact Except.noConfusion h
  · split at h
    · exact Except.noConfusion h
    · split at h
      · exact Except.noConfusion h
      · split at h
        · exact Except.noConfusion h
        · rename_i heq
          unfold createInDB at heq
          split at heq
          · exact Except.noConfusion heq
          · injection heq with heq
            injection heq with hrow hst
            injection h with h
            injection h with hrow2 hst2
            subst hrow hst hrow2 hst2
            refine ⟨rfl, ?_, ?_⟩
            · show (syncSubscriptionCreate _ _ _).subs = _
              rw [syncSubscriptionCreate_subs]
            · show syncStats (syncSubscriptionCreate _ _ _).stats _ _ _ true = _
              rw [syncSubscriptionCreate_stats]

/-- A successful Delete removed exactly the row found by id and ran
syncStats once with decrement on its values. -/
theorem delete_ok (st : SysState) (i u : Nat) (st' : SysState)
    (h : SubscriptionPostgres.delete st i u = Except.ok st') :
    ∃ sub, st.subs.find? (fun s => s.id == i) = some sub ∧
      st'.subs = st.subs.filter (fun s => !(s.id == i)) ∧
      st'.stats = syncStats st.stats sub.board sub.subType sub.value false := by
  unfold SubscriptionPostgres.delete at h
  split at h
  · exact Except.noConfusion h
  · rename_i sub hfind
    split at h
    · exact Except.noConfusion h
    · split at h
      · injection h with h
        refine ⟨sub, hfind, ?_, ?_⟩
        · rw [← h]
          show (syncSubscriptionDelete _ _ _).subs = _
          rw [syncSubscriptionDelete_subs]
        · rw [← h]
          show syncStats (syncSubscriptionDelete _ _ _).stats _ _ _ false = _
          rw [syncSubscriptionDelete_stats]
      · injection h with h
        exact ⟨sub, hfind, by rw [← h]; rfl, by rw [← h]; rfl⟩

/-- A successful Update rewrote exactly the row found by id (keeping its
id and user) and ran syncStats once with decrement on the old values and
once with increment on the new ones. -/
theorem update_ok (st : SysState) (i u : Nat) (b t v : String) (e : Bool) (st' : SysState)
    (h : SubscriptionPostgres.update st i u b t v e = Except.ok st') :
    ∃ sub, st.subs.find? (fun s => s.id == i) = some sub ∧
      st'.subs = st.subs.map (fun s =>
        if s.id == i then (⟨sub.id, sub.userId, b, t, v, e⟩ : SubRow) else s) ∧
      st'.stats =
        syncStats (syncStats st.stats sub.board sub.subType sub.value false) b t v true := by
  unfold SubscriptionPostgres.update at h
  split at h
  · exact Except.noConfusion h
  · rename_i sub hfind
    split at h
    · exact Except.noConfusion h
    · split at h
      · exact Except.noConfusion h
      · split at h
        · exact Except.noConfusion h
        · split at h
          · injection h with h
            refine ⟨sub, hfind, ?_, ?_⟩
            · rw [← h]
              show (syncSubscriptionCreate _ _ _).subs = _
              rw [syncSubscriptionCreate_subs]
            · rw [← h]
              show syncStats (syncStats (syncSubscriptionCreate _ _ _).stats _ _ _ false)
                _ _ _ true = _
              rw [syncSubscriptionCreate_stats]
          · injection h with h
            exact ⟨sub, hfind, by rw [← h]; rfl, by rw [← h]; rfl⟩

/-! ## Preservation of the stat invariant (claim C2 machinery) -/

/-- The stat table equals the multiset of component contributions of the
subscription table, and SERIAL ids are pairwise distinct. -/
def StatsInvariant (st : SysState) : Prop :=
  GoodIds st.subs ∧ ∀ k : StatKey, st.stats k = subsContribution st.subs k

theorem applyOp_preserves (st : SysState) (op : SubOp) (h : StatsInvariant st) :
    StatsInvariant (applyOp st op) := by
  obtain ⟨hids, hinv⟩ := h
  cases op with
  | createOp u b t v =>
    show StatsInvariant (match SubscriptionPostgres.create st u b t v with
      | Except.ok (_, st') => st'
      | Except.error _ => st)
    cases hok : SubscriptionPostgres.create st u b t v with
    | error e => exact ⟨hids, hinv⟩
    | ok pair =>
      obtain ⟨row, st'⟩ := pair
      show StatsInvariant st'
      obtain ⟨hrow, hsubs, hstats⟩ := create_ok st u b t v row st' hok
      subst hrow
      constructor
      · rw [hsubs]
        apply goodIds_append_fresh _ _ hids
        intro s hs
        exact nextSubId_fresh st.subs s hs
      · intro k
        have hcontrib : subContribution
            (⟨nextSubId st.subs, u, b, t, v, true⟩ : SubRow) k
            = occurrences b t (componentValues t v) k := rfl
        rw [hsubs, hstats, syncStats_inc_apply, subsContribution_append, hinv k]
        rw [subsContribution_cons, subsContribution_nil, hcontrib]
        omega
  | deleteOp i u =>
    show StatsInvariant (match SubscriptionPostgres.delete st i u with
      | Except.ok st' => st'
      | Except.error _ => st)
    cases hok : SubscriptionPostgres.delete st i u with
    | error e => exact ⟨hids, hinv⟩
    | ok st' =>
      show StatsInvariant st'
      obtain ⟨sub, hfind, hsubs, hstats⟩ := delete_ok st i u st' hok
      constructor
      · rw [hsubs]
        exact goodIds_filter _ _ hids
      · intro k
        have hge : ∀ k : StatKey,
            (occurrences sub.board sub.subType
              (componentValues sub.subType sub.value) k : Int) ≤ st.stats k := by
          intro kk
          rw [hinv kk]
          have h1 := subsContribution_filter_of_find i sub kk st.subs hids hfind
          have h2 := subsContribution_nonneg (st.subs.filter (fun s => !(s.id == i))) kk
          show (subContribution sub kk : Int) ≤ _
          omega
        have hcontrib : subContribution sub k
            = occurrences sub.board sub.subType (componentValues sub.subType sub.value) k := rfl
        rw [hsubs, hstats, syncStats_dec_apply _ _ _ _ hge, hinv k,
          subsContribution_filter_of_find i sub k st.subs hids hfind, hcontrib]
  | updateOp i u b t v e =>
    show StatsInvariant (match SubscriptionPostgres.update st i u b t v e with
      | Except.ok st' => st'
      | Except.error _ => st)
    cases hok : SubscriptionPostgres.update st i u b t v e with
    | error e2 => exact ⟨hids, hinv⟩
    | ok st' =>
      show StatsInvariant st'
      obtain ⟨sub, hfind, hsubs, hstats⟩ := update_ok st i u b t v e st' hok
      have hidEq : sub.id = i := by
        have hp := List.find?_some hfind
        simpa using hp
      constructor
      · rw [hsubs]
        exact goodIds_map_update _ _ _ hidEq hids
      · intro k
        have hge : ∀ k : StatKey,
            (occurrences sub.board sub.subType
              (componentValues sub.subType sub.value) k : Int) ≤ st.stats k := by
          intro kk
          rw [hinv kk]
          have h1 := subsContribution_filter_of_find i sub kk st.subs hids hfind
          have h2 := subsContribution_nonneg (st.subs.filter (fun s => !(s.id == i))) kk
          show (subContribution sub kk : Int) ≤ _
          omega
        have hc1 : subContribution sub k
            = occurrences sub.board sub.subType (componentValues sub.subType sub.value) k := rfl
        have hc2 : subContribution (⟨sub.id, sub.userId, b, t, v, e⟩ : SubRow) k
            = occurrences b t (componentValues t v) k := rfl
        rw [hsubs, hstats, syncStats_inc_apply, syncStats_dec_apply _ _ _ _ hge, hinv k,
          subsContribution_map_update i sub _ k st.subs hids hfind, hc1, hc2]

theorem applyOps_preserves (st : SysState) (ops : List SubOp) (h : StatsInvariant st) :
    StatsInvariant (applyOps st ops) := by
  induction ops generalizing st with
  | nil => exact h
  | cons op rest ih => exact ih _ (applyOp_preserves st op h)

/-! ## Articles and comments (models/article/postgres.go) -/

/-- An article comment as parsed from the page.  Timestamps are modelled
as Nat; a missing timestamp (the Go zero time) is none. -/
structure Comment where
  tag : String
  userId : String
  content : String
  dateTime : Option Nat
deriving DecidableEq, Repr

/-- The Article value passed to Save: identifying data plus the full
comment list.  Aggregate counts are recomputed by Save and are not part of
the input. -/
structure Article where
  code : String
  id : Nat
  title : String
  link : String
  date : String
  author : String
  board : String
  pushSum : Int
  lastPushDateTime : Option Nat
  comments : List Comment
deriving DecidableEq, Repr

/-- A stored row of the articles table. -/
structure ArticleRow where
  code : String
  id : Nat
  title : String
  link : String
  date : String
  author : String
  boardName : String
  pushSum : Int
  lastPushDateTime : Option Nat
  positiveCount : Nat
  negativeCount : Nat
  neutralCount : Nat
deriving DecidableEq, Repr

/-- The article store: boards, articles (UNIQUE code) and comments rows
tagged with their article_code. -/
structure ArticleDB where
  boards : List String
  articles : List ArticleRow
  comments : List (String × Comment)
deriving DecidableEq, Repr

/-- countCommentsByTag: classify each comment by the first glyph of its
trimmed tag; a tag starting with none of the three glyphs is counted in no
bucket. -/
def countCommentsByTag (comments : List Comment) : Nat × Nat × Nat :=
  comments.foldl (fun acc c =>
    if startsWithStr (trimSpace c.tag) "推" then (acc.1 + 1, acc.2.1, acc.2.2)
    else if startsWithStr (trimSpace c.tag) "噓" then (acc.1, acc.2.1 + 1, acc.2.2)
    else if startsWithStr (trimSpace c.tag) "→" then (acc.1, acc.2.1, acc.2.2 + 1)
    else acc) (0, 0, 0)

/-- A comment whose trimmed tag starts with one of the three PTT glyphs,
and is therefore counted by countCommentsByTag. -/
def classifiedComment (c : Comment) : Bool :=
  startsWithStr (trimSpace c.tag) "推" || startsWithStr (trimSpace c.tag) "噓" ||
    startsWithStr (trimSpace c.tag) "→"

/-- The row the upsert in Save writes: every column from the article with
the counts recomputed from the comments; board_name is the given one (kept
from the old row in the conflict branch, which does not update it). -/
def articleRowOf (a : Article) (boardName : String) : ArticleRow :=
  { code := a.code, id := a.id, title := a.title, link := a.link, date := a.date,
    author := a.author, boardName := boardName, pushSum := a.pushSum,
    lastPushDateTime := a.lastPushDateTime,
    positiveCount := (countCommentsByTag a.comments).1,
    negativeCount := (countCommentsByTag a.comments).2.1,
    neutralCount := (countCommentsByTag a.comments).2.2 }

/-- Postgres.Save on articles, one transaction: insert the board row if
missing (ON CONFLICT DO NOTHING); upsert the article row by code, the
conflict branch updating every column except board_name with the counts
recomputed from the comments; delete all comments of the article; insert
the given comment list, substituting now for a missing timestamp. -/
def articleSave (db : ArticleDB) (a : Article) (now : Nat) : ArticleDB :=
  { boards := if a.board ∈ db.boards then db.boards else db.boards ++ [a.board],
    articles :=
      if db.articles.any (fun r => r.code == a.code) then
        db.articles.map (fun r => if r.code == a.code then articleRowOf a r.boardName else r)
      else
        db.articles ++ [articleRowOf a a.board],
    comments :=
      db.comments.filter (fun rc => !(rc.1 == a.code)) ++
        a.comments.map (fun c => (a.code, { c with dateTime := some (c.dateTime.getD now) })) }

/-- Postgres.Find on articles, restricted to the article row. -/
def storedArticle (db : ArticleDB) (code : String) : Option ArticleRow :=
  db.articles.find? (fun r => r.code == code)

/-- The article table stores at most one row per code. -/
def GoodCodes (db : ArticleDB) : Prop :=
  (db.articles.map (fun r => r.code)).Nodup

theorem countCommentsByTag_go (comments : List Comment) :
    ∀ p n u : Nat,
      (comments.foldl (fun acc c =>
        if startsWithStr (trimSpace c.tag) "推" then (acc.1 + 1, acc.2.1, acc.2.2)
        else if startsWithStr (trimSpace c.tag) "噓" then (acc.1, acc.2.1 + 1, acc.2.2)
        else if startsWithStr (trimSpace c.tag) "→" then (acc.1, acc.2.1, acc.2.2 + 1)
        else acc) (p, n, u)) =
      (p + (countCommentsByTag comments).1, n + (countCommentsByTag comments).2.1,
        u + (countCommentsByTag comments).2.2) := by
  induction comments with
  | nil => intro p n u; simp [countCommentsByTag]
  | cons c cs ih =>
    intro p n u
    show (cs.foldl _ (if startsWithStr (trimSpace c.tag) "推" then (p + 1, n, u)
      else if startsWithStr (trimSpace c.tag) "噓" then (p, n + 1, u)
      else if startsWithStr (trimSpace c.tag) "→" then (p, n, u + 1)
      else (p, n, u))) = _
    have htot : countCommentsByTag (c :: cs)
        = (cs.foldl (fun acc c =>
            if startsWithStr (trimSpace c.tag) "推" then (acc.1 + 1, acc.2.1, acc.2.2)
            else if startsWithStr (trimSpace c.tag) "噓" then (acc.1, acc.2.1 + 1, acc.2.2)
            else if startsWithStr (trimSpace c.tag) "→" then (acc.1, acc.2.1, acc.2.2 + 1)
            else acc)
          (if startsWithStr (trimSpace c.tag) "推" then ((1 : Nat), (0 : Nat), (0 : Nat))
            else if startsWithStr (trimSpace c.tag) "噓" then (0, 1, 0)
            else if startsWithStr (trimSpace c.tag) "→" then (0, 0, 1)
            else (0, 0, 0))) := by
      unfold countCommentsByTag
      show List.foldl _ (if startsWithStr (trimSpace c.tag) "推" then ((0 : Nat) + 1, (0 : Nat), (0 : Nat))
        else if startsWithStr (trimSpace c.tag) "噓" then (0, 0 + 1, 0)
        else if startsWithStr (trimSpace c.tag) "→" then (0, 0, 0 + 1)
        else (0, 0, 0)) cs = _
      by_cases h1 : startsWithStr (trimSpace c.tag) "推" <;>
        by_cases h2 : startsWithStr (trimSpace c.tag) "噓" <;>
          by_cases h3 : startsWithStr (trimSpace c.tag) "→" <;>
            simp [h1, h2, h3]
    rw [htot]
    by_cases h1 : startsWithStr (trimSpace c.tag) "推" <;>
      by_cases h2 : startsWithStr (trimSpace c.tag) "噓" <;>
        by_cases h3 : startsWithStr (trimSpace c.tag) "→" <;>
          simp only [h1, h2, h3, if_true, if_false, reduceIte] <;>
            rw [ih, ih] <;> simp <;> omega

/-- The three buckets of countCommentsByTag sum to the number of
classified comments. -/
theorem countCommentsByTag_sum (comments : List Comment) :
    (countCommentsByTag comments).1 + (countCommentsByTag comments).2.1 +
      (countCommentsByTag comments).2.2 =
    (comments.filter classifiedComment).length := by
  induction comments with
  | nil => simp [countCommentsByTag]
  | cons c cs ih =>
    have hcons : countCommentsByTag (c :: cs)
        = ((if startsWithStr (trimSpace c.tag) "推" then 1 else 0) + (countCommentsByTag cs).1,
           (if ¬ startsWithStr (trimSpace c.tag) "推" ∧ startsWithStr (trimSpace c.tag) "噓"
              then 1 else 0) + (countCommentsByTag cs).2.1,
           (if ¬ startsWithStr (trimSpace c.tag) "推" ∧ ¬ startsWithStr (trimSpace c.tag) "噓"
              ∧ startsWithStr (trimSpace c.tag) "→" then 1 else 0) + (countCommentsByTag cs).2.2) := by
      show (cs.foldl _ (if startsWithStr (trimSpace c.tag) "推" then ((0 : Nat) + 1, (0 : Nat), (0 : Nat))
        else if startsWithStr (trimSpace c.tag) "噓" then (0, 0 + 1, 0)
        else if startsWithStr (trimSpace c.tag) "→" then (0, 0, 0 + 1)
        else (0, 0, 0))) = _
      by_cases h1 : startsWithStr (trimSpace c.tag) "推" <;>
        by_cases h2 : startsWithStr (trimSpace c.tag) "噓" <;>
          by_cases h3 : startsWithStr (trimSpace c.tag) "→" <;>
            simp only [h1, h2, h3, if_true, if_false, reduceIte] <;>
              rw [countCommentsByTag_go] <;> simp [h1, h2, h3]
    rw [hcons]
    rw [List.filter_cons]
    by_cases hc : classifiedComment c
    · have : (if startsWithStr (trimSpace c.tag) "推" then 1 else 0)
          + (if ¬ startsWithStr (trimSpace c.tag) "推" ∧ startsWithStr (trimSpace c.tag) "噓"
              then 1 else 0)
          + (if ¬ startsWithStr (trimSpace c.tag) "推" ∧ ¬ startsWithStr (trimSpace c.tag) "噓"
              ∧ startsWithStr (trimSpace c.tag) "→" then 1 else 0) = 1 := by
        unfold classifiedComment at hc
        by_cases h1 : startsWithStr (trimSpace c.tag) "推" <;>
          by_cases h2 : startsWithStr (trimSpace c.tag) "噓" <;>
            by_cases h3 : startsWithStr (trimSpace c.tag) "→" <;>
              simp [h1, h2, h3] at hc ⊢
      simp only [hc, if_true, reduceIte, List.length_cons]
      omega
    · have : (if startsWithStr (trimSpace c.tag) "推" then 1 else 0)
          + (if ¬ startsWithStr (trimSpace c.tag) "推" ∧ startsWithStr (trimSpace c.tag) "噓"
              then 1 else 0)
          + (if ¬ startsWithStr (trimSpace c.tag) "推" ∧ ¬ startsWithStr (trimSpace c.tag) "噓"
              ∧ startsWithStr (trimSpace c.tag) "→" then 1 else 0) = 0 := by
        unfold classifiedComment at hc
        by_cases h1 : startsWithStr (trimSpace c.tag) "推" <;>
          by_cases h2 : startsWithStr (trimSpace c.tag) "噓" <;>
            by_cases h3 : startsWithStr (trimSpace c.tag) "→" <;>
              simp [h1, h2, h3] at hc ⊢
      simp only [Bool.not_eq_true] at hc
      simp only [hc, Bool.false_eq_true, if_false, reduceIte]
      omega

theorem filter_code_length (l : List ArticleRow) (c : String) :
    (l.filter (fun r => r.code == c)).length = (l.map (fun r => r.code)).count c := by
  induction l with
  | nil => rfl
  | cons r t ih =>
    rw [List.filter_cons, List.map_cons, List.count_cons]
    by_cases h : r.code = c
    · simp only [h, beq_self_eq_true, if_true, reduceIte, List.length_cons, ih]
    · have h2 : (r.code == c) = false := by simp [h]
      simp only [h2, Bool.false_eq_true, if_false, reduceIte, ih]
      simp [h]

/-- Save keeps the code column of the table unchanged in the conflict
branch and appends the new code otherwise; codes stay pairwise distinct. -/
theorem articleSave_goodCodes (db : ArticleDB) (a : Article) (now : Nat) (h : GoodCodes db) :
    GoodCodes (articleSave db a now) := by
  unfold GoodCodes articleSave at *
  by_cases hany : db.articles.any (fun r => r.code == a.code)
  · simp only [hany, if_true, reduceIte]
    rw [List.map_map]
    have : ∀ r ∈ db.articles,
        ((fun r : ArticleRow => r.code) ∘ fun r =>
          if r.code == a.code then articleRowOf a r.boardName else r) r
          = (fun r : ArticleRow => r.code) r := by
      intro r _
      by_cases hr : r.code = a.code
      · simp [Function.comp, hr, articleRowOf]
      · simp [Function.comp, hr]
    rw [List.map_congr_left this]
    exact h
  · simp only [hany, Bool.false_eq_true, if_false, reduceIte]
    rw [List.map_append, List.nodup_append]
    refine ⟨h, by simp, ?_⟩
    intro x hx hx2
    simp only [List.map_cons, List.map_nil, List.mem_singleton] at hx2
    obtain ⟨r, hr, rfl⟩ := List.mem_map.mp hx
    rw [List.any_eq_true] at hany
    exact hany ⟨r, hr, by simp [articleRowOf] at hx2 ⊢; exact hx2⟩

/-- After Save, exactly one article row carries the saved code. -/
theorem articleSave_articleCount (db : ArticleDB) (a : Article) (now : Nat) (h : GoodCodes db) :
    ((articleSave db a now).articles.filter (fun r => r.code == a.code)).length = 1 := by
  unfold articleSave
  by_cases hany : db.articles.any (fun r => r.code == a.code)
  · simp only [hany, if_true, reduceIte]
    rw [filter_code_length, List.map_map]
    have hmapeq : ∀ r ∈ db.articles,
        ((fun r : ArticleRow => r.code) ∘ fun r =>
          if r.code == a.code then articleRowOf a r.boardName else r) r
          = (fun r : ArticleRow => r.code) r := by
      intro r _
      by_cases hr : r.code = a.code
      · simp [Function.comp, hr, articleRowOf]
      · simp [Function.comp, hr]
    rw [List.map_congr_left hmapeq]
    rw [List.any_eq_true] at hany
    obtain ⟨r, hr, hrc⟩ := hany
    have hmem : a.code ∈ db.articles.map (fun r => r.code) :=
      List.mem_map.mpr ⟨r, hr, by simpa using hrc⟩
    have hle := List.nodup_iff_count_le_one.mp h a.code
    have hge := List.count_pos_iff.mpr hmem
    omega
  · simp only [hany, Bool.false_eq_true, if_false, reduceIte]
    rw [List.filter_append]
    have h1 : db.articles.filter (fun r => r.code == a.code) = [] := by
      rw [List.filter_eq_nil_iff]
      intro r hr
      rw [List.any_eq_true] at hany
      exact fun hc => hany ⟨r, hr, hc⟩
    rw [h1]
    simp [articleRowOf]

/-- After Save, the comment rows of the saved code are exactly the given
comment list. -/
theorem articleSave_commentCount (db : ArticleDB) (a : Article) (now : Nat) :
    ((articleSave db a now).comments.filter (fun rc => rc.1 == a.code)).length
      = a.comments.length := by
  unfold articleSave
  rw [List.filter_append]
  have h1 : (db.comments.filter (fun rc => !(rc.1 == a.code))).filter
      (fun rc => rc.1 == a.code) = [] := by
    rw [List.filter_eq_nil_iff]
    intro rc hrc
    have := List.of_mem_filter hrc
    simp at this
    simp [this]
  have h2 : (a.comments.map (fun c =>
      (a.code, { c with dateTime := some (c.dateTime.getD now) }))).filter
        (fun rc => rc.1 == a.code)
      = a.comments.map (fun c => (a.code, { c with dateTime := some (c.dateTime.getD now) })) := by
    rw [List.filter_eq_self]
    intro rc hrc
    obtain ⟨c, _, rfl⟩ := List.mem_map.mp hrc
    simp
  rw [h1, h2]
  simp

/-- After Save, the stored row of the saved code is the one written by the
upsert (its board column either the fresh board or the one of the old
row). -/
theorem articleSave_stored (db : ArticleDB) (a : Article) (now : Nat) :
    ∃ bn, storedArticle (articleSave db a now) a.code = some (articleRowOf a bn) := by
  unfold storedArticle articleSave
  by_cases hany : db.articles.any (fun r => r.code == a.code)
  · simp only [hany, if_true, reduceIte]
    revert hany
    induction db.articles with
    | nil => intro hany; simp at hany
    | cons r t ih =>
      intro hany
      by_cases hr : r.code = a.code
      · refine ⟨r.boardName, ?_⟩
        rw [List.map_cons]
        have hf : (if r.code == a.code then articleRowOf a r.boardName else r)
            = articleRowOf a r.boardName := by simp [hr]
        rw [hf, List.find?_cons]
        simp [articleRowOf]
      · have hany' : t.any (fun r => r.code == a.code) = true := by
          rw [List.any_cons] at hany
          simpa [hr] using hany
        obtain ⟨bn, hbn⟩ := ih hany'
        refine ⟨bn, ?_⟩
        rw [List.map_cons]
        have hf : (if r.code == a.code then articleRowOf a r.boardName else r) = r := by
          simp [hr]
        rw [hf, List.find?_cons]
        have hp : (r.code == a.code) = false := by simp [hr]
        simp only [hp]
        exact hbn
  · simp only [hany, Bool.false_eq_true, if_false, reduceIte]
    refine ⟨a.board, ?_⟩
    revert hany
    induction db.articles with
    | nil =>
      intro _
      rw [List.nil_append, List.find?_cons]
      simp [articleRowOf]
    | cons r t ih =>
      intro hany
      rw [List.any_cons] at hany
      have hr : (r.code == a.code) = false := by
        rcases Bool.or_eq_false_iff.mp (Bool.eq_false_iff.mpr hany) with ⟨h1, _⟩
        exact h1
      have hany' : ¬ t.any (fun r => r.code == a.code) = true := by
        intro hc
        exact hany (Bool.or_eq_true_iff.mpr (Or.inr hc))
      rw [List.cons_append, List.find?_cons]
      simp only [hr]
      exact ih hany'

/-! ## Notification bindings (binding repository and bind-code command) -/

def serviceTelegram : String := "telegram"

/-- binding.Postgres.Create: INSERT with enabled true; rejected by the
UNIQUE (user_id, service) or UNIQUE (service, service_id) constraint. -/
def bindingCreate (bs : List BindingRow) (userId : Nat) (service serviceId : String) :
    Except Unit (List BindingRow) :=
  if bs.any (fun b => b.userId == userId && b.service == service) ||
      bs.any (fun b => b.service == service && b.serviceId == serviceId) then
    Except.error ()
  else
    Except.ok (bs ++ [⟨userId, service, serviceId, none, none, true⟩])

/-- binding.Postgres.UpdateBindCode: update the code of the existing
(user, service) row; when none exists, insert a pending row with empty
service_id and enabled false, which the UNIQUE (service, service_id)
constraint rejects if another pending row of the service exists. -/
def updateBindCode (bs : List BindingRow) (userId : Nat) (service code : String)
    (expiresAt : Nat) : Except Unit (List BindingRow) :=
  if bs.any (fun b => b.userId == userId && b.service == service) then
    Except.ok (bs.map (fun b =>
      if b.userId == userId && b.service == service then
        { b with bindCode := some code, bindCodeExpiresAt := some expiresAt }
      else b))
  else if bs.any (fun b => b.service == service && b.serviceId == "") then
    Except.error ()
  else
    Except.ok (bs ++ [⟨userId, service, "", some code, some expiresAt, false⟩])

/-- binding.Postgres.ConfirmBinding: UPDATE the (user, service) row with
the service id, clearing the code and enabling it; rejected by the UNIQUE
(service, service_id) constraint when another row already carries that
identity. -/
def confirmBinding (bs : List BindingRow) (userId : Nat) (service serviceId : String) :
    Except Unit (List BindingRow) :=
  if bs.any (fun b => !(b.userId == userId) && b.service == service && b.serviceId == serviceId)
  then
    Except.error ()
  else
    Except.ok (bs.map (fun b =>
      if b.userId == userId && b.service == service then
        { b with
            serviceId := serviceId
            bindCode := none
            bindCodeExpiresAt := none
            enabled := true }
      else b))

/-- binding.Postgres.Delete. -/
def bindingDelete (bs : List BindingRow) (userId : Nat) (service : String) : List BindingRow :=
  bs.filter (fun b => !(b.userId == userId && b.service == service))

/-- binding.Postgres.SetEnabled. -/
def bindingSetEnabled (bs : List BindingRow) (userId : Nat) (service : String) (enabled : Bool) :
    List BindingRow :=
  bs.map (fun b =>
    if b.userId == userId && b.service == service then { b with enabled := enabled } else b)

/-- binding.Postgres.FindByBindCode: the service row with the matching,
unexpired code (a NULL expiry never satisfies the strict comparison). -/
def findByBindCode (bs : List BindingRow) (service code : String) (now : Nat) :
    Option BindingRow :=
  bs.find? (fun b => b.service == service && b.bindCode == some code &&
    (match b.bindCodeExpiresAt with
     | some e => decide (now < e)
     | none => false))

/-- binding.Postgres.FindByServiceID. -/
def findByServiceID (bs : List BindingRow) (service serviceId : String) : Option BindingRow :=
  bs.find? (fun b => b.service == service && b.serviceId == serviceId)

/-- The writes the binding repository exposes. -/
inductive BindOp where
  | createOp (userId : Nat) (service serviceId : String)
  | updateBindCodeOp (userId : Nat) (service code : String) (expiresAt : Nat)
  | confirmOp (userId : Nat) (service serviceId : String)
  | deleteOp (userId : Nat) (service : String)
  | setEnabledOp (userId : Nat) (service : String) (enabled : Bool)

/-- Apply one binding write; a write the store rejects leaves the table
unchanged. -/
def applyBindOp (bs : List BindingRow) (op : BindOp) : List BindingRow :=
  match op with
  | BindOp.createOp u s sid =>
    match bindingCreate bs u s sid with
    | Except.ok bs' => bs'
    | Except.error _ => bs
  | BindOp.updateBindCodeOp u s code exp =>
    match updateBindCode bs u s code exp with
    | Except.ok bs' => bs'
    | Except.error _ => bs
  | BindOp.confirmOp u s sid =>
    match confirmBinding bs u s sid with
    | Except.ok bs' => bs'
    | Except.error _ => bs
  | BindOp.deleteOp u s => bindingDelete bs u s
  | BindOp.setEnabledOp u s e => bindingSetEnabled bs u s e

def applyBindOps (bs : List BindingRow) (ops : List BindOp) : List BindingRow :=
  ops.foldl applyBindOp bs

/-- The two UNIQUE constraints of notification_bindings: at most one row
per (user_id, service) and at most one per (service, service_id). -/
def BindingUniq (bs : List BindingRow) : Prop :=
  (bs.map (fun b => (b.userId, b.service))).Nodup ∧
  (bs.map (fun b => (b.service, b.serviceId))).Nodup

/-- handleBindCode (telegram bot): resolve the code, refuse an already
confirmed account, refuse a chat identity already bound to another
account, otherwise confirm the binding.  The Redis profile sync that runs
after a successful confirmation touches only the cache. -/
def handleBindCode (bs : List BindingRow) (args : String) (chatId : Int) (now : Nat) :
    String × List BindingRow :=
  if trimSpace args = "" then ("請輸入綁定碼\n格式: /bind <綁定碼>", bs)
  else
    match findByBindCode bs serviceTelegram (trimSpace args) now with
    | none => ("綁定碼無效或已過期，請重新產生", bs)
    | some b =>
      if b.serviceId ≠ "" then ("此帳號已綁定 Telegram", bs)
      else
        match findByServiceID bs serviceTelegram (toString chatId) with
        | some _ => ("此 Telegram 已綁定其他帳號，請先解除綁定", bs)
        | none =>
          match confirmBinding bs b.userId serviceTelegram (toString chatId) with
          | Except.ok bs' => ("綁定成功！您現在可以在網頁上管理訂閱，通知將發送到此 Telegram。", bs')
          | Except.error _ => ("綁定失敗，請稍後再試", bs)

/-! ## Uniqueness of binding rows under the repository writes -/

theorem nodup_map_of_pointwise {α β : Type} (l : List α) (f : α → α) (g : α → β)
    (h : ∀ x ∈ l, g (f x) = g x) (hn : (l.map g).Nodup) : ((l.map f).map g).Nodup := by
  rw [List.map_map]
  have heq : l.map (g ∘ f) = l.map g := List.map_congr_left (fun x hx => h x hx)
  rw [heq]
  exact hn

theorem nodup_map_append_fresh {α β : Type} (l : List α) (x : α) (g : α → β)
    (hn : (l.map g).Nodup) (hfresh : ∀ y ∈ l, g y ≠ g x) : ((l ++ [x]).map g).Nodup := by
  rw [List.map_append, List.nodup_append]
  refine ⟨hn, by simp, ?_⟩
  intro z hz hz2
  simp only [List.map_cons, List.map_nil, List.mem_singleton] at hz2
  obtain ⟨y, hy, rfl⟩ := List.mem_map.mp hz
  exact hfresh y hy hz2

theorem any_eq_false_forall {α : Type} {l : List α} {p : α → Bool}
    (h : ¬ l.any p = true) : ∀ x ∈ l, ¬ p x = true := by
  intro x hx hp
  exact h (List.any_eq_true.mpr ⟨x, hx, hp⟩)

/-- The (service, service_id) keys stay pairwise distinct under a
ConfirmBinding update guarded by its uniqueness check. -/
theorem confirm_key2_nodup (u : Nat) (s sid : String) :
    ∀ bs : List BindingRow,
      (bs.map (fun b => (b.userId, b.service))).Nodup →
      (bs.map (fun b => (b.service, b.serviceId))).Nodup →
      (∀ b ∈ bs, ¬(¬ b.userId = u ∧ b.service = s ∧ b.serviceId = sid)) →
      ((bs.map (fun b =>
        if b.userId == u && b.service == s then
          { b with
              serviceId := sid
              bindCode := none
              bindCodeExpiresAt := none
              enabled := true }
        else b)).map (fun b => (b.service, b.serviceId))).Nodup := by
  intro bs
  induction bs with
  | nil => intro _ _ _; simp
  | cons b t ih =>
    intro h1 h2 hguard
    have h1t : (t.map (fun b => (b.userId, b.service))).Nodup := (List.nodup_cons.mp h1).2
    have h2t : (t.map (fun b => (b.service, b.serviceId))).Nodup := (List.nodup_cons.mp h2).2
    have h1h : (b.userId, b.service) ∉ t.map (fun b => (b.userId, b.service)) :=
      (List.nodup_cons.mp h1).1
    have h2h : (b.service, b.serviceId) ∉ t.map (fun b => (b.service, b.serviceId)) :=
      (List.nodup_cons.mp h2).1
    have hguardt : ∀ x ∈ t, ¬(¬ x.userId = u ∧ x.service = s ∧ x.serviceId = sid) :=
      fun x hx => hguard x (List.mem_cons_of_mem _ hx)
    rw [List.map_cons, List.map_cons, List.nodup_cons]
    constructor
    · by_cases hb : (b.userId == u && b.service == s) = true
      · have hbu : b.userId = u := eq_of_beq ((Bool.and_eq_true _ _).mp hb).1
        have hbs : b.service = s := eq_of_beq ((Bool.and_eq_true _ _).mp hb).2
        simp only [hb, if_true, reduceIte]
        intro hmem
        rw [List.map_map] at hmem
        obtain ⟨x, hx, hkey⟩ := List.mem_map.mp hmem
        simp only [Function.comp_apply] at hkey
        by_cases hxm : (x.userId == u && x.service == s) = true
        · have hxu : x.userId = u := eq_of_beq ((Bool.and_eq_true _ _).mp hxm).1
          have hxs : x.service = s := eq_of_beq ((Bool.and_eq_true _ _).mp hxm).2
          apply h1h
          refine List.mem_map.mpr ⟨x, hx, ?_⟩
          rw [hxu, hxs, hbu, hbs]
        · rw [if_neg hxm] at hkey
          have hx2 : x.service = s ∧ x.serviceId = sid := by
            have hpair : (x.service, x.serviceId) = (s, sid) := by
              rw [hkey]
              rw [hbs]
            exact ⟨congrArg Prod.fst hpair, congrArg Prod.snd hpair⟩
          have hxu : x.userId = u := by
            by_contra hxu
            exact hguardt x hx ⟨hxu, hx2.1, hx2.2⟩
          exact hxm (by simp [hxu, hx2.1])
      · simp only [hb, Bool.false_eq_true, if_false, reduceIte]
        intro hmem
        rw [List.map_map] at hmem
        obtain ⟨x, hx, hkey⟩ := List.mem_map.mp hmem
        simp only [Function.comp_apply] at hkey
        by_cases hxm : (x.userId == u && x.service == s) = true
        · have hxs : x.service = s := eq_of_beq ((Bool.and_eq_true _ _).mp hxm).2
          rw [if_pos hxm] at hkey
          have hb2 : b.service = s ∧ b.serviceId = sid := by
            have hpair : (x.service, sid) = (b.service, b.serviceId) := hkey
            have hfst : x.service = b.service := congrArg Prod.fst hpair
            have hsnd : sid = b.serviceId := congrArg Prod.snd hpair
            exact ⟨by rw [← hfst, hxs], hsnd.symm⟩
          have hbu : b.userId = u := by
            by_contra hbu
            exact hguard b (List.mem_cons_self _ _) ⟨hbu, hb2.1, hb2.2⟩
          exact hb (by simp [hbu, hb2.1])
        · rw [if_neg hxm] at hkey
          apply h2h
          exact List.mem_map.mpr ⟨x, hx, hkey⟩
    · exact ih h1t h2t hguardt

theorem applyBindOp_preserves (bs : List BindingRow) (op : BindOp) (h : BindingUniq bs) :
    BindingUniq (applyBindOp bs op) := by
  obtain ⟨h1, h2⟩ := h
  cases op with
  | createOp u s sid =>
    show BindingUniq (match bindingCreate bs u s sid with
      | Except.ok bs' => bs'
      | Except.error _ => bs)
    unfold bindingCreate
    by_cases hg : (bs.any (fun b => b.userId == u && b.service == s) ||
        bs.any (fun b => b.service == s && b.serviceId == sid)) = true
    · rw [if_pos hg]
      exact ⟨h1, h2⟩
    · rw [if_neg hg]
      have hg1 : ¬ bs.any (fun b => b.userId == u && b.service == s) = true := by
        intro hc
        exact hg (Bool.or_eq_true_iff.mpr (Or.inl hc))
      have hg2 : ¬ bs.any (fun b => b.service == s && b.serviceId == sid) = true := by
        intro hc
        exact hg (Bool.or_eq_true_iff.mpr (Or.inr hc))
      constructor
      · apply nodup_map_append_fresh _ _ _ h1
        intro y hy hkey
        apply any_eq_false_forall hg1 y hy
        have : y.userId = u ∧ y.service = s :=
          ⟨congrArg Prod.fst hkey, congrArg Prod.snd hkey⟩
        simp [this.1, this.2]
      · apply nodup_map_append_fresh _ _ _ h2
        intro y hy hkey
        apply any_eq_false_forall hg2 y hy
        have : y.service = s ∧ y.serviceId = sid :=
          ⟨congrArg Prod.fst hkey, congrArg Prod.snd hkey⟩
        simp [this.1, this.2]
  | updateBindCodeOp u s code exp =>
    show BindingUniq (match updateBindCode bs u s code exp with
      | Except.ok bs' => bs'
      | Except.error _ => bs)
    unfold updateBindCode
    by_cases hg : bs.any (fun b => b.userId == u && b.service == s) = true
    · rw [if_pos hg]
      constructor
      · exact nodup_map_of_pointwise _ _ _ (by intro x _; split <;> rfl) h1
      · exact nodup_map_of_pointwise _ _ _ (by intro x _; split <;> rfl) h2
    · rw [if_neg hg]
      by_cases hg2 : bs.any (fun b => b.service == s && b.serviceId == "") = true
      · rw [if_pos hg2]
        exact ⟨h1, h2⟩
      · rw [if_neg hg2]
        constructor
        · apply nodup_map_append_fresh _ _ _ h1
          intro y hy hkey
          apply any_eq_false_forall hg y hy
          have : y.userId = u ∧ y.service = s :=
            ⟨congrArg Prod.fst hkey, congrArg Prod.snd hkey⟩
          simp [this.1, this.2]
        · apply nodup_map_append_fresh _ _ _ h2
          intro y hy hkey
          apply any_eq_false_forall hg2 y hy
          have : y.service = s ∧ y.serviceId = "" :=
            ⟨congrArg Prod.fst hkey, congrArg Prod.snd hkey⟩
          simp [this.1, this.2]
  | confirmOp u s sid =>
    show BindingUniq (match confirmBinding bs u s sid with
      | Except.ok bs' => bs'
      | Except.error _ => bs)
    unfold confirmBinding
    by_cases hg : bs.any (fun b => !(b.userId == u) && b.service == s && b.serviceId == sid) = true
    · rw [if_pos hg]
      exact ⟨h1, h2⟩
    · rw [if_neg hg]
      constructor
      · exact nodup_map_of_pointwise _ _ _ (by intro x _; split <;> rfl) h1
      · apply confirm_key2_nodup u s sid bs h1 h2
        intro b hb hcontra
        apply any_eq_false_forall hg b hb
        obtain ⟨hbu, hbs, hbsid⟩ := hcontra
        simp [hbu, hbs, hbsid]
  | deleteOp u s =>
    show BindingUniq (bindingDelete bs u s)
    unfold bindingDelete
    exact ⟨((List.filter_sublist bs).map _).nodup h1, ((List.filter_sublist bs).map _).nodup h2⟩
  | setEnabledOp u s e =>
    show BindingUniq (bindingSetEnabled bs u s e)
    unfold bindingSetEnabled
    constructor
    · exact nodup_map_of_pointwise _ _ _ (by intro x _; split <;> rfl) h1
    · exact nodup_map_of_pointwise _ _ _ (by intro x _; split <;> rfl) h2

theorem applyBindOps_preserves (bs : List BindingRow) (ops : List BindOp)
    (h : BindingUniq bs) : BindingUniq (applyBindOps bs ops) := by
  induction ops generalizing bs with
  | nil => exact h
  | cons op rest ih => exact ih _ (applyBindOp_preserves bs op h)

/-! ## Round-trip machinery (claim C4) -/

/-- Whether SyncSubscriptionCreate syncs at all: a telegram binding exists
and carries a nonempty service id. -/
def telegramSynced (bindings : List BindingRow) (accId : Nat) : Bool :=
  match findByUserAndService bindings accId "telegram" with
  | none => false
  | some tb => !(tb.serviceId == "")

theorem applyCreateStats_subs (st : SysState) (b t v : String) :
    (applyCreateStats st b t v).subs = st.subs := rfl

theorem applyCreateStats_accounts (st : SysState) (b t v : String) :
    (applyCreateStats st b t v).accounts = st.accounts := rfl

theorem applyCreateStats_stats (st : SysState) (b t v : String) :
    (applyCreateStats st b t v).stats = syncStats st.stats b t v true := rfl

theorem applyCreateStats_sets (st : SysState) (b t v : String) :
    (applyCreateStats st b t v).subscriberSets = st.subscriberSets := rfl

theorem applyDeleteStats_subs (st : SysState) (sub : SubRow) :
    (applyDeleteStats st sub).subs = st.subs := rfl

theorem applyDeleteStats_stats (st : SysState) (sub : SubRow) :
    (applyDeleteStats st sub).stats
      = syncStats st.stats sub.board sub.subType sub.value false := rfl

theorem applyDeleteStats_sets (st : SysState) (sub : SubRow) :
    (applyDeleteStats st sub).subscriberSets = st.subscriberSets := rfl

theorem syncSubscriptionCreate_accounts (st : SysState) (sub : SubRow) (a : Nat) :
    (syncSubscriptionCreate st sub a).accounts = st.accounts := by
  unfold syncSubscriptionCreate
  split
  · rfl
  · split <;> rfl

theorem syncSubscriptionCreate_sets (st : SysState) (sub : SubRow) (a : Nat) :
    (syncSubscriptionCreate st sub a).subscriberSets =
      if telegramSynced st.bindings a then
        sadd st.subscriberSets (sub.subType, sub.board, getWebAccount a)
      else st.subscriberSets := by
  unfold syncSubscriptionCreate telegramSynced
  cases hfb : findByUserAndService st.bindings a "telegram" with
  | none => simp
  | some tb =>
    by_cases he : tb.serviceId = ""
    · simp [he]
    · simp [he]

theorem syncSubscriptionDelete_sets (st : SysState) (sub : SubRow) (a : Nat) :
    (syncSubscriptionDelete st sub a).subscriberSets =
      if st.subs.any (fun s =>
          s.userId == a && s.id != sub.id && s.board == sub.board && s.subType == sub.subType)
      then st.subscriberSets
      else srem st.subscriberSets (sub.subType, sub.board, getWebAccount a) := by
  unfold syncSubscriptionDelete
  split <;> rfl

theorem find?_append_fresh_row (l : List SubRow) (row : SubRow)
    (h : ∀ s ∈ l, s.id ≠ row.id) :
    (l ++ [row]).find? (fun s => s.id == row.id) = some row := by
  induction l with
  | nil =>
    rw [List.nil_append, List.find?_cons]
    simp
  | cons a tl ih =>
    rw [List.cons_append, List.find?_cons]
    have ha : (a.id == row.id) = false := by
      simp [h a (List.mem_cons_self _ _)]
    simp only [ha]
    exact ih (fun s hs => h s (List.mem_cons_of_mem _ hs))

theorem filter_append_fresh (l : List SubRow) (row : SubRow)
    (h : ∀ s ∈ l, s.id ≠ row.id) :
    (l ++ [row]).filter (fun s => !(s.id == row.id)) = l := by
  rw [List.filter_append]
  have h1 : l.filter (fun s => !(s.id == row.id)) = l := by
    apply List.filter_eq_self.mpr
    intro s hs
    simp [h s hs]
  have h2 : ([row] : List SubRow).filter (fun s => !(s.id == row.id)) = [] := by
    simp
  rw [h1, h2, List.append_nil]

theorem list_any_congr {α : Type} (l : List α) (p q : α → Bool) (h : ∀ x ∈ l, p x = q x) :
    l.any p = l.any q := by
  induction l with
  | nil => rfl
  | cons a tl ih =>
    rw [List.any_cons, List.any_cons, h a (List.mem_cons_self _ _),
      ih (fun x hx => h x (List.mem_cons_of_mem _ hx))]

theorem sadd_of_mem {α : Type} [DecidableEq α] (s : List α) (x : α) (h : x ∈ s) :
    sadd s x = s := by
  unfold sadd
  rw [if_pos h]

theorem sadd_of_not_mem {α : Type} [DecidableEq α] (s : List α) (x : α) (h : x ∉ s) :
    sadd s x = s ++ [x] := by
  unfold sadd
  rw [if_neg h]

theorem srem_of_not_mem {α : Type} [DecidableEq α] (s : List α) (x : α) (h : x ∉ s) :
    srem s x = s := by
  unfold srem
  apply List.filter_eq_self.mpr
  intro y hy
  simp
  intro hc
  subst hc
  exact h hy

theorem srem_append_self {α : Type} [DecidableEq α] (s : List α) (x : α) (h : x ∉ s) :
    srem (s ++ [x]) x = s := by
  unfold srem
  rw [List.filter_append]
  have h1 : s.filter (fun y => y ≠ x) = s := by
    apply List.filter_eq_self.mpr
    intro y hy
    simp
    intro hc
    subst hc
    exact h hy
  have h2 : ([x] : List α).filter (fun y => y ≠ x) = [] := by simp
  rw [h1, h2, List.append_nil]

/-- Forward evaluation of Create under hypotheses that make every check
pass. -/
theorem create_eval (st : SysState) (u : Nat) (b t v : String) (acc : AccountRow)
    (hacc : findAccountByID st.accounts u = some acc)
    (hlimit : checkLimit st u acc.role = Except.ok ())
    (hboard : b ∈ st.existingBoards)
    (hdup : st.subs.any (fun s =>
      s.userId == u && s.board == b && s.subType == t && s.value == v) = false) :
    SubscriptionPostgres.create st u b t v
      = Except.ok (⟨nextSubId st.subs, u, b, t, v, true⟩,
          applyCreateStats
            (syncSubscriptionCreate
              { st with subs := st.subs ++ [⟨nextSubId st.subs, u, b, t, v, true⟩] }
              ⟨nextSubId st.subs, u, b, t, v, true⟩ acc.id) b t v) := by
  have hboard2 : ¬ (b ∉ st.existingBoards) := fun hc => hc hboard
  unfold SubscriptionPostgres.create createInDB
  simp only [hacc, hlimit, if_neg hboard2, hdup, Bool.false_eq_true, if_false, reduceIte]

/-- Forward evaluation of Delete under hypotheses that make every check
pass. -/
theorem delete_eval (st : SysState) (i u : Nat) (sub : SubRow) (acc : AccountRow)
    (hfind : st.subs.find? (fun s => s.id == i) = some sub)
    (hown : sub.userId = u)
    (hacc : findAccountByID st.accounts u = some acc) :
    SubscriptionPostgres.delete st i u =
      Except.ok (applyDeleteStats
        (syncSubscriptionDelete
          { st with subs := st.subs.filter (fun s => !(s.id == i)) } sub acc.id) sub) := by
  have hown2 : ¬ (sub.userId ≠ u) := fun hc => hc hown
  unfold SubscriptionPostgres.delete
  simp only [hfind, hacc, if_neg hown2]

/-- Claim C4 (amended): for every starting state with nonnegative stat
counts whose cache subscriber-set membership for the (kind, board) of x is
consistent with the store and the telegram binding, performing Create(x)
then Delete(x) on a subscription x that does not already exist restores
the subscription count of the user, every stat counter value, and the
subscriber-set memberships to their pre-create values. -/
theorem C4_roundtrip (st : SysState) (u : Nat) (b t v : String) (acc : AccountRow)
    (hacc : findAccountByID st.accounts u = some acc)
    (hlimit : checkLimit st u acc.role = Except.ok ())
    (hboard : b ∈ st.existingBoards)
    (hdup : st.subs.any (fun s =>
      s.userId == u && s.board == b && s.subType == t && s.value == v) = false)
    (hstats : ∀ k : StatKey, 0 ≤ st.stats k)
    (hmem1 : telegramSynced st.bindings acc.id = true →
      st.subs.any (fun s => s.userId == acc.id && s.board == b && s.subType == t) = true →
      (t, b, getWebAccount acc.id) ∈ st.subscriberSets)
    (hmem2 : st.subs.any (fun s => s.userId == acc.id && s.board == b && s.subType == t) = false →
      (t, b, getWebAccount acc.id) ∉ st.subscriberSets) :
    ∃ row st₁ st₂,
      SubscriptionPostgres.create st u b t v = Except.ok (row, st₁) ∧
      SubscriptionPostgres.delete st₁ row.id u = Except.ok st₂ ∧
      countByUserID st₂.subs u = countByUserID st.subs u ∧
      (∀ k : StatKey, st₂.stats k = st.stats k) ∧
      st₂.subscriberSets = st.subscriberSets := by
  have hfresh : ∀ s ∈ st.subs, s.id ≠ nextSubId st.subs :=
    fun s hs => nextSubId_fresh st.subs s hs
  set rowL : SubRow := ⟨nextSubId st.subs, u, b, t, v, true⟩ with hrowL
  set stIns : SysState := { st with subs := st.subs ++ [rowL] } with hstIns
  set st₁ : SysState := applyCreateStats (syncSubscriptionCreate stIns rowL acc.id) b t v
    with hst₁
  set stDel : SysState := { st₁ with subs := st₁.subs.filter (fun s => !(s.id == rowL.id)) }
    with hstD
  set st₂ : SysState := applyDeleteStats (syncSubscriptionDelete stDel rowL acc.id) rowL
    with hst₂
  have hfreshL : ∀ s ∈ st.subs, s.id ≠ rowL.id := by
    rw [hrowL]
    exact hfresh
  have e1 : st₁.subs = st.subs ++ [rowL] := by
    rw [hst₁, applyCreateStats_subs, syncSubscriptionCreate_subs, hstIns]
  have edelsubs : stDel.subs = st.subs := by
    rw [hstD]
    show st₁.subs.filter (fun s => !(s.id == rowL.id)) = st.subs
    rw [e1]
    exact filter_append_fresh st.subs rowL hfreshL
  have hfind1 : st₁.subs.find? (fun s => s.id == rowL.id) = some rowL := by
    rw [e1]
    exact find?_append_fresh_row st.subs rowL hfreshL
  have hacc1 : findAccountByID st₁.accounts u = some acc := by
    rw [hst₁, applyCreateStats_accounts, syncSubscriptionCreate_accounts, hstIns]
    exact hacc
  have hcreateEq : SubscriptionPostgres.create st u b t v = Except.ok (rowL, st₁) := by
    rw [hst₁, hstIns, hrowL]
    exact create_eval st u b t v acc hacc hlimit hboard hdup
  have hdeleteEq : SubscriptionPostgres.delete st₁ rowL.id u = Except.ok st₂ := by
    rw [hst₂, hstD]
    exact delete_eval st₁ rowL.id u rowL acc hfind1 (by rw [hrowL]) hacc1
  have e2 : st₂.subs = st.subs := by
    rw [hst₂, applyDeleteStats_subs, syncSubscriptionDelete_subs]
    exact edelsubs
  have estats1 : st₁.stats = syncStats st.stats b t v true := by
    rw [hst₁, applyCreateStats_stats, syncSubscriptionCreate_stats, hstIns]
  have estats2 : st₂.stats = syncStats st₁.stats b t v false := by
    rw [hst₂, applyDeleteStats_stats, syncSubscriptionDelete_stats]
  have esets1 : st₁.subscriberSets =
      (if telegramSynced st.bindings acc.id then
        sadd st.subscriberSets (t, b, getWebAccount acc.id)
      else st.subscriberSets) := by
    rw [hst₁, applyCreateStats_sets, syncSubscriptionCreate_sets, hstIns]
  have edelsets : stDel.subscriberSets = st₁.subscriberSets := by
    rw [hstD]
  have econd : (stDel.subs.any (fun s =>
      s.userId == acc.id && s.id != rowL.id && s.board == rowL.board
        && s.subType == rowL.subType))
      = st.subs.any (fun s => s.userId == acc.id && s.board == b && s.subType == t) := by
    rw [edelsubs]
    apply list_any_congr
    intro s hs
    have hne : (s.id != rowL.id) = true := by
      rw [bne_iff_ne]
      exact hfreshL s hs
    rw [hne]
    have hbd : (s.board == rowL.board) = (s.board == b) := rfl
    have htp : (s.subType == rowL.subType) = (s.subType == t) := rfl
    rw [Bool.and_true, hbd, htp]
  refine ⟨rowL, st₁, st₂, hcreateEq, hdeleteEq, ?_, ?_, ?_⟩
  · rw [e2]
  · intro k
    have hge : ∀ k' : StatKey,
        (occurrences b t (componentValues t v) k' : Int) ≤ syncStats st.stats b t v true k' := by
      intro k'
      rw [syncStats_inc_apply]
      have := hstats k'
      omega
    rw [estats2, estats1, syncStats_dec_apply _ _ _ _ hge k, syncStats_inc_apply]
    omega
  · rw [hst₂, applyDeleteStats_sets, syncSubscriptionDelete_sets, econd, edelsets]
    by_cases hOther : st.subs.any (fun s =>
      s.userId == acc.id && s.board == b && s.subType == t) = true
    · rw [if_pos hOther, esets1]
      by_cases hb2 : telegramSynced st.bindings acc.id = true
      · rw [if_pos hb2]
        exact sadd_of_mem _ _ (hmem1 hb2 hOther)
      · rw [if_neg hb2]
    · have hOtherF : st.subs.any (fun s =>
          s.userId == acc.id && s.board == b && s.subType == t) = false := by
        cases hcase : st.subs.any (fun s =>
          s.userId == acc.id && s.board == b && s.subType == t) with
        | false => rfl
        | true => exact absurd hcase hOther
      have hnm := hmem2 hOtherF
      rw [if_neg hOther, esets1]
      by_cases hb2 : telegramSynced st.bindings acc.id = true
      · rw [if_pos hb2, sadd_of_not_mem _ _ hnm]
        exact srem_append_self _ _ hnm
      · rw [if_neg hb2]
        exact srem_of_not_mem _ _ hnm



/-! ## Dispatcher profile and sendMessage (jobs, redis_sync) -/

/-- Modelled from the spec: counter.IncrAlert, whose implementation is
outside the given sources, increments the monotonic alerts-sent counter
kept in the cache. -/
def incrAlert (n : Nat) : Nat := n + 1

/-- Embeds the digit parsing of strconv.ParseInt base 10: an optional
minus sign followed by at least one decimal digit. -/
def parseDigitsAux : List Char → Nat → Option Nat
  | [], acc => some acc
  | c :: cs, acc =>
    if c.isDigit then parseDigitsAux cs (acc * 10 + (c.toNat - 48)) else none

def parseIntString (s : String) : Option Int :=
  match s.data with
  | [] => none
  | '-' :: rest =>
    match rest with
    | [] => none
    | _ => (parseDigitsAux rest 0).map (fun n => -(n : Int))
  | l => (parseDigitsAux l 0).map (fun n => (n : Int))

/-- The dispatch-time user profile kept in the cache under user:(account),
restricted to the fields sendMessage reads. -/
structure UserProfile where
  account : String
  telegram : String
  telegramChat : Int
deriving DecidableEq, Repr

/-- RedisSync.updateUserData, restricted to the profile it writes: nothing
is written when the telegram binding is missing, has an empty service id,
or a service id that does not parse as an integer; otherwise both Account
and Telegram are set to the nonempty web account key.  The enabled flag of
the binding is never consulted. -/
def buildUserProfile (accId : Nat) (bindings : List BindingRow) : Option UserProfile :=
  match findByUserAndService bindings accId "telegram" with
  | none => none
  | some tb =>
    if tb.serviceId = "" then none
    else
      match parseIntString tb.serviceId with
      | none => none
      | some chatId => some ⟨getWebAccount accId, getWebAccount accId, chatId⟩

/-- jobs sendMessage: a profile with an empty Telegram field is dropped
with a warning (no send, counter untouched); otherwise the message is sent
over telegram and the alerts-sent counter incremented.  Returns whether a
send happened and the new counter. -/
def sendMessage (p : UserProfile) (alertCounter : Nat) : Bool × Nat :=
  if p.telegram = "" then (false, alertCounter)
  else (true, incrAlert alertCounter)

/-! ## Increment and decrement sequences (claim C7) -/

/-- The two writes the stat repositories expose (both
SubscriptionStatsPostgres and top.Postgres run the same SQL). -/
inductive StatOp where
  | incOp (board subType value : String)
  | decOp (board subType value : String)

def applyStatOp (st : Stats) (op : StatOp) : Stats :=
  match op with
  | StatOp.incOp b t v => st.increment b t v
  | StatOp.decOp b t v => st.decrement b t v

def applyStatOps (st : Stats) (ops : List StatOp) : Stats :=
  ops.foldl applyStatOp st

theorem applyStatOp_nonneg (st : Stats) (op : StatOp) (h : ∀ k : StatKey, 0 ≤ st k) :
    ∀ k : StatKey, 0 ≤ applyStatOp st op k := by
  intro k
  cases op with
  | incOp b t v =>
    show 0 ≤ Stats.increment st b t v k
    rw [increment_apply]
    have := h k
    split <;> omega
  | decOp b t v =>
    show 0 ≤ Stats.decrement st b t v k
    rw [decrement_apply]
    have := h k
    split <;> omega

theorem applyStatOps_nonneg (ops : List StatOp) :
    ∀ st : Stats, (∀ k : StatKey, 0 ≤ st k) → ∀ k : StatKey, 0 ≤ applyStatOps st ops k := by
  induction ops with
  | nil => intro st h k; exact h k
  | cons op rest ih =>
    intro st h k
    exact ih (applyStatOp st op) (applyStatOp_nonneg st op h) k

/-! ## Auxiliary observers and concrete states for the claims -/

/-- Whether a subscription-service result is a success. -/
def isOkCreate (r : Except SubError (SubRow × SysState)) : Bool :=
  match r with
  | Except.ok _ => true
  | Except.error _ => false

/-- Whether a subscription-service result is the limit-reached error. -/
def isLimitError (r : Except SubError (SubRow × SysState)) : Bool :=
  match r with
  | Except.error SubError.limitReached => true
  | _ => false

/-- The stat keys contributed by a subscription row, with multiplicity the
list order. -/
def componentKeys (s : SubRow) : List StatKey :=
  (componentValues s.subType s.value).map (fun v => (s.board, s.subType, v))

/-- The subscriber sets after a Create immediately followed by a Delete,
when both succeed. -/
def roundTripSets (st : SysState) (u : Nat) (b t v : String) :
    Option (List (String × String × String)) :=
  match SubscriptionPostgres.create st u b t v with
  | Except.error _ => none
  | Except.ok (row, st₁) =>
    match SubscriptionPostgres.delete st₁ row.id u with
    | Except.error _ => none
    | Except.ok st₂ => some st₂.subscriberSets

/-- A state whose only role has max_subscriptions -2, reachable through
the admin role API, which does not validate the value. -/
def C1state : SysState :=
  ⟨[⟨1, "u@example.com", "weird", true⟩], [], [⟨"weird", -2⟩], [],
    Stats.empty, ["Gossiping"], [], []⟩

/-- A state ready for one user to create subscriptions on board B. -/
def C2state : SysState :=
  ⟨[⟨1, "u@example.com", "user", true⟩], [], [⟨"user", 3⟩], [],
    Stats.empty, ["B"], [], []⟩

/-- A bound user whose cache subscriber set contains a stale membership
for a (kind, board) with no surviving subscription, as left behind by an
Update that moved the only subscription away. -/
def C4state : SysState :=
  ⟨[⟨1, "u@example.com", "user", true⟩], [⟨1, "telegram", "123", none, none, true⟩],
    [⟨"user", 3⟩], [], Stats.empty, ["B"], [], [("keyword", "B", "web_1")]⟩

theorem getWebAccount_ne_empty (a : Nat) : getWebAccount a ≠ "" := by
  intro h
  have hlen : (getWebAccount a).length = 0 := by rw [h]; rfl
  unfold getWebAccount at hlen
  rw [String.length_append] at hlen
  have h4 : ("web_" : String).length = 4 := rfl
  omega

theorem articleSave_board (db : ArticleDB) (a : Article) (now : Nat) :
    a.board ∈ (articleSave db a now).boards := by
  unfold articleSave
  by_cases h : a.board ∈ db.boards
  · simp only [h, if_true, reduceIte]
  · simp only [h, if_false, reduceIte]
    simp

def saveTimes (db : ArticleDB) (a : Article) (now : Nat) : Nat → ArticleDB
  | 0 => db
  | n + 1 => articleSave (saveTimes db a now n) a now

/-! ## The claims -/

/-- Claim C1 (amended): CheckLimit skips the limit check whenever the role
limit is negative (not only at -1); otherwise (limit nonnegative), when
the user count is at least the limit, Create fails with the limit-reached
error and the state is unchanged, and when the count is below the limit
the check passes. -/
theorem C1_role_limit_enforced :
    (∀ (st : SysState) (u : Nat) (role : String),
      getMaxSubscriptions st.roleLimits role < 0 → checkLimit st u role = Except.ok ()) ∧
    (∀ (st : SysState) (u : Nat) (b t v : String) (acc : AccountRow),
      findAccountByID st.accounts u = some acc →
      0 ≤ getMaxSubscriptions st.roleLimits acc.role →
      (countByUserID st.subs u : Int) ≥ getMaxSubscriptions st.roleLimits acc.role →
      SubscriptionPostgres.create st u b t v = Except.error SubError.limitReached ∧
      applyOp st (SubOp.createOp u b t v) = st) ∧
    (∀ (st : SysState) (u : Nat) (role : String),
      (countByUserID st.subs u : Int) < getMaxSubscriptions st.roleLimits role →
      checkLimit st u role = Except.ok ()) := by
  refine ⟨?_, ?_, ?_⟩
  · intro st u role h
    unfold checkLimit
    rw [if_pos h]
  · intro st u b t v acc hacc hmax hge
    have hlim : checkLimit st u acc.role = Except.error SubError.limitReached := by
      unfold checkLimit
      rw [if_neg (by omega), if_pos hge]
    have hcr : SubscriptionPostgres.create st u b t v
        = Except.error SubError.limitReached := by
      unfold SubscriptionPostgres.create
      simp only [hacc, hlim]
    refine ⟨hcr, ?_⟩
    show (match SubscriptionPostgres.create st u b t v with
      | Except.ok (_, st') => st'
      | Except.error _ => st) = st
    rw [hcr]
  · intro st u role hlt
    unfold checkLimit
    by_cases hneg : getMaxSubscriptions st.roleLimits role < 0
    · rw [if_pos hneg]
    · rw [if_neg hneg, if_neg (by omega)]

/-- Claim C1 witness: a user with role limit 3 and three subscriptions is
rejected with limit-reached and the state is unchanged. -/
theorem C1_witness :
    SubscriptionPostgres.create
      (⟨[⟨1, "u@example.com", "user", true⟩], [], [⟨"user", 3⟩],
        [⟨1, 1, "B", "keyword", "x", true⟩, ⟨2, 1, "B", "keyword", "y", true⟩,
          ⟨3, 1, "B", "keyword", "z", true⟩],
        Stats.empty, ["B"], [], []⟩ : SysState) 1 "B" "keyword" "w"
      = Except.error SubError.limitReached ∧
    applyOp
      (⟨[⟨1, "u@example.com", "user", true⟩], [], [⟨"user", 3⟩],
        [⟨1, 1, "B", "keyword", "x", true⟩, ⟨2, 1, "B", "keyword", "y", true⟩,
          ⟨3, 1, "B", "keyword", "z", true⟩],
        Stats.empty, ["B"], [], []⟩ : SysState) (SubOp.createOp 1 "B" "keyword" "w")
      = (⟨[⟨1, "u@example.com", "user", true⟩], [], [⟨"user", 3⟩],
        [⟨1, 1, "B", "keyword", "x", true⟩, ⟨2, 1, "B", "keyword", "y", true⟩,
          ⟨3, 1, "B", "keyword", "z", true⟩],
        Stats.empty, ["B"], [], []⟩ : SysState) :=
  C1_role_limit_enforced.2.1 _ 1 "B" "keyword" "w" ⟨1, "u@example.com", "user", true⟩
    rfl (by decide) (by decide)

/-- Claim C1 counterexample: a role with max_subscriptions -2 (creatable
through the admin role API, which does not validate the value) makes the
claim as stated predict a limit-reached failure at count 0, but the code
skips the check for any negative limit and the create succeeds. -/
theorem C1_counterexample :
    getMaxSubscriptions C1state.roleLimits "weird" = -2 ∧
    (countByUserID C1state.subs 1 : Int) ≥ getMaxSubscriptions C1state.roleLimits "weird" ∧
    isLimitError (SubscriptionPostgres.create C1state 1 "Gossiping" "keyword" "k") = false ∧
    isOkCreate (SubscriptionPostgres.create C1state 1 "Gossiping" "keyword" "k") = true := by
  decide

/-- Claim C2 (amended): a stat update of kind article touches no counter;
a keyword mutation updates each element of the parsed component list once
(so a component occurring twice in the list is counted twice); author and
pushsum update the single value once; consequently, in every state
reachable from an empty store, SubscriptionStat(b,k,v) equals the total
number of occurrences of (b,k,v) among the parsed component lists of the
stored subscriptions. -/
theorem C2_stats_invariant :
    (∀ (st : Stats) (b v : String) (inc : Bool), syncStats st b "article" v inc = st) ∧
    (∀ (st : Stats) (b v : String) (k : StatKey),
      syncStats st b "keyword" v true k
        = st k + occurrences b "keyword" (parseKeywordValues v) k) ∧
    (∀ t : String, t ≠ "article" → t ≠ "keyword" →
      ∀ (st : Stats) (b v : String) (k : StatKey),
        syncStats st b t v true k = st k + occurrences b t [v] k) ∧
    (∀ st₀ : SysState, st₀.subs = [] → st₀.stats = Stats.empty →
      ∀ (ops : List SubOp) (k : StatKey),
        (applyOps st₀ ops).stats k = subsContribution (applyOps st₀ ops).subs k) := by
  refine ⟨?_, ?_, ?_, ?_⟩
  · intro st b v inc
    unfold syncStats
    rw [if_pos rfl]
  · intro st b v k
    have hc : componentValues "keyword" v = parseKeywordValues v := by
      unfold componentValues
      rw [if_neg (by decide), if_pos rfl]
    rw [syncStats_inc_apply, hc]
  · intro t ht1 ht2 st b v k
    have hc : componentValues t v = [v] := by
      unfold componentValues
      rw [if_neg ht1, if_neg ht2]
    rw [syncStats_inc_apply, hc]
  · intro st₀ hsubs hstats ops k
    have hinv : StatsInvariant st₀ := by
      constructor
      · unfold GoodIds
        rw [hsubs]
        exact List.nodup_nil
      · intro k'
        rw [hsubs, hstats]
        rfl
    exact (applyOps_preserves st₀ ops hinv).2 k

/-- Claim C2 witness: after one author subscription is created in an empty
store, the stat counter of its key equals its contribution. -/
theorem C2_witness :
    (applyOps C2state [SubOp.createOp 1 "B" "author" "alice"]).stats ("B", "author", "alice")
      = subsContribution (applyOps C2state [SubOp.createOp 1 "B" "author" "alice"]).subs
          ("B", "author", "alice") :=
  C2_stats_invariant.2.2.2 C2state rfl rfl [SubOp.createOp 1 "B" "author" "alice"]
    ("B", "author", "alice")

/-- Claim C2 counterexample: creating the keyword value a&a in an empty
store leaves the counter of (B, keyword, a) at 2, while only one stored
subscription has (B, keyword, a) among its parsed components, so the
counter does not equal the number of such subscriptions. -/
theorem C2_counterexample :
    (applyOps C2state [SubOp.createOp 1 "B" "keyword" "a&a"]).stats ("B", "keyword", "a") = 2 ∧
    ((applyOps C2state [SubOp.createOp 1 "B" "keyword" "a&a"]).subs.filter
      (fun s => decide (("B", "keyword", "a") ∈ componentKeys s))).length = 1 ∧
    ¬ ((2 : Int) = 1) := by
  decide

/-- Claim C3 (amended): after Article.Save the stored row of the saved
code has positive_count + negative_count + neutral_count equal to the
number of comments whose trimmed tag starts with one of the three PTT
glyphs; when every comment is so tagged, the sum equals the number of
comments. -/
theorem C3_comment_counts :
    (∀ (db : ArticleDB) (a : Article) (now : Nat),
      ∃ r, storedArticle (articleSave db a now) a.code = some r ∧
        r.positiveCount + r.negativeCount + r.neutralCount
          = (a.comments.filter classifiedComment).length) ∧
    (∀ (db : ArticleDB) (a : Article) (now : Nat),
      (∀ c ∈ a.comments, classifiedComment c = true) →
      ∃ r, storedArticle (articleSave db a now) a.code = some r ∧
        r.positiveCount + r.negativeCount + r.neutralCount = a.comments.length) := by
  constructor
  · intro db a now
    obtain ⟨bn, hbn⟩ := articleSave_stored db a now
    refine ⟨articleRowOf a bn, hbn, ?_⟩
    show (countCommentsByTag a.comments).1 + (countCommentsByTag a.comments).2.1
      + (countCommentsByTag a.comments).2.2 = _
    exact countCommentsByTag_sum a.comments
  · intro db a now hall
    obtain ⟨bn, hbn⟩ := articleSave_stored db a now
    refine ⟨articleRowOf a bn, hbn, ?_⟩
    show (countCommentsByTag a.comments).1 + (countCommentsByTag a.comments).2.1
      + (countCommentsByTag a.comments).2.2 = _
    rw [countCommentsByTag_sum a.comments, List.filter_eq_self.mpr hall]

/-- Claim C3 witness: saving an article whose single comment is a push
(tag 推) stores counts summing to the comment count 1. -/
theorem C3_witness :
    ∃ r, storedArticle
        (articleSave (⟨[], [], []⟩ : ArticleDB)
          (⟨"c1", 1, "T", "L", "d", "au", "B", 0, none, [⟨"推 ", "u1", "hi", none⟩]⟩ : Article)
          0) "c1" = some r ∧
      r.positiveCount + r.negativeCount + r.neutralCount = 1 :=
  C3_comment_counts.2 (⟨[], [], []⟩ : ArticleDB)
    (⟨"c1", 1, "T", "L", "d", "au", "B", 0, none, [⟨"推 ", "u1", "hi", none⟩]⟩ : Article)
    0 (by decide)

/-- Claim C3 counterexample: a comment whose tag starts with none of the
three glyphs is counted in no bucket, so the stored sum is 0 while the
comment list has length 1. -/
theorem C3_counterexample :
    storedArticle
        (articleSave (⟨[], [], []⟩ : ArticleDB)
          (⟨"c1", 1, "T", "L", "d", "au", "B", 0, none, [⟨"x", "u1", "hi", none⟩]⟩ : Article)
          0) "c1"
      = some (articleRowOf
          (⟨"c1", 1, "T", "L", "d", "au", "B", 0, none, [⟨"x", "u1", "hi", none⟩]⟩ : Article)
          "B") ∧
    (articleRowOf
      (⟨"c1", 1, "T", "L", "d", "au", "B", 0, none, [⟨"x", "u1", "hi", none⟩]⟩ : Article)
      "B").positiveCount
      + (articleRowOf
          (⟨"c1", 1, "T", "L", "d", "au", "B", 0, none, [⟨"x", "u1", "hi", none⟩]⟩ : Article)
          "B").negativeCount
      + (articleRowOf
          (⟨"c1", 1, "T", "L", "d", "au", "B", 0, none, [⟨"x", "u1", "hi", none⟩]⟩ : Article)
          "B").neutralCount = 0 ∧
    (⟨"c1", 1, "T", "L", "d", "au", "B", 0, none,
      [⟨"x", "u1", "hi", none⟩]⟩ : Article).comments.length = 1 := by
  decide

/-- Claim C4 witness: in a state with one unbound user, no subscriptions,
zero stats and an empty subscriber set, Create then Delete restores count,
stats and sets. -/
theorem C4_witness :
    ∃ row st₁ st₂,
      SubscriptionPostgres.create
        (⟨[⟨1, "u@example.com", "user", true⟩], [], [⟨"user", 3⟩], [],
          Stats.empty, ["B"], [], []⟩ : SysState) 1 "B" "keyword" "k"
        = Except.ok (row, st₁) ∧
      SubscriptionPostgres.delete st₁ row.id 1 = Except.ok st₂ ∧
      countByUserID st₂.subs 1
        = countByUserID
            (⟨[⟨1, "u@example.com", "user", true⟩], [], [⟨"user", 3⟩], [],
              Stats.empty, ["B"], [], []⟩ : SysState).subs 1 ∧
      (∀ k : StatKey, st₂.stats k
        = (⟨[⟨1, "u@example.com", "user", true⟩], [], [⟨"user", 3⟩], [],
            Stats.empty, ["B"], [], []⟩ : SysState).stats k) ∧
      st₂.subscriberSets
        = (⟨[⟨1, "u@example.com", "user", true⟩], [], [⟨"user", 3⟩], [],
            Stats.empty, ["B"], [], []⟩ : SysState).subscriberSets :=
  C4_roundtrip
    (⟨[⟨1, "u@example.com", "user", true⟩], [], [⟨"user", 3⟩], [],
      Stats.empty, ["B"], [], []⟩ : SysState) 1 "B" "keyword" "k"
    ⟨1, "u@example.com", "user", true⟩ rfl rfl (by decide) rfl
    (fun _ => Int.le_refl 0) (by decide) (by decide)

/-- Claim C4 counterexample: in a reachable state where the bound user has
a stale subscriber-set membership and no surviving subscription of that
(kind, board), Create then Delete removes the membership, so the sets are
not restored to their pre-create value. -/
theorem C4_counterexample :
    ("keyword", "B", "web_1") ∈ C4state.subscriberSets ∧
    roundTripSets C4state 1 "B" "keyword" "k" = some [] := by
  decide

/-- Claim C5: Article.Save upserts the board and the article row and
replaces the comment set, so after any positive number of saves of the
same article there is exactly one article row with its code, exactly as
many comment rows as the article has comments, and the board row exists. -/
theorem C5_save_idempotent (db : ArticleDB) (a : Article) (now n : Nat) (h : GoodCodes db) :
    ((saveTimes db a now (n + 1)).articles.filter (fun r => r.code == a.code)).length = 1 ∧
    ((saveTimes db a now (n + 1)).comments.filter (fun rc => rc.1 == a.code)).length
      = a.comments.length ∧
    a.board ∈ (saveTimes db a now (n + 1)).boards := by
  have hGood : GoodCodes (saveTimes db a now n) := by
    induction n with
    | zero => exact h
    | succ m ih => exact articleSave_goodCodes _ _ _ ih
  exact ⟨articleSave_articleCount _ _ _ hGood, articleSave_commentCount _ _ _,
    articleSave_board _ _ _⟩

/-- Claim C5 witness: saving a two-comment article three times into an
empty store leaves one article row, two comment rows and the board row. -/
theorem C5_witness :
    ((saveTimes (⟨[], [], []⟩ : ArticleDB)
        (⟨"c9", 1, "T", "L", "d", "au", "B", 0, none,
          [⟨"推 ", "u1", "hi", none⟩, ⟨"噓 ", "u2", "no", some 5⟩]⟩ : Article)
        0 3).articles.filter (fun r => r.code == "c9")).length = 1 ∧
    ((saveTimes (⟨[], [], []⟩ : ArticleDB)
        (⟨"c9", 1, "T", "L", "d", "au", "B", 0, none,
          [⟨"推 ", "u1", "hi", none⟩, ⟨"噓 ", "u2", "no", some 5⟩]⟩ : Article)
        0 3).comments.filter (fun rc => rc.1 == "c9")).length = 2 ∧
    "B" ∈ (saveTimes (⟨[], [], []⟩ : ArticleDB)
        (⟨"c9", 1, "T", "L", "d", "au", "B", 0, none,
          [⟨"推 ", "u1", "hi", none⟩, ⟨"噓 ", "u2", "no", some 5⟩]⟩ : Article)
        0 3).boards :=
  C5_save_idempotent (⟨[], [], []⟩ : ArticleDB)
    (⟨"c9", 1, "T", "L", "d", "au", "B", 0, none,
      [⟨"推 ", "u1", "hi", none⟩, ⟨"噓 ", "u2", "no", some 5⟩]⟩ : Article)
    0 2 List.nodup_nil

/-- Claim C6: inserting a subscription whose (user, board, kind, value)
already exists fails with the already-exists error, which the REST
controller surfaces as 409; a non-duplicate insert succeeds and raises no
already-exists error. -/
theorem C6_duplicate_conflict :
    (∀ (st : SysState) (u : Nat) (b t v : String),
      st.subs.any (fun s =>
        s.userId == u && s.board == b && s.subType == t && s.value == v) = true →
      createInDB st u b t v = Except.error SubError.alreadyExists) ∧
    createSubscriptionStatus SubError.alreadyExists = 409 ∧
    (∀ (st : SysState) (u : Nat) (b t v : String) (acc : AccountRow),
      findAccountByID st.accounts u = some acc →
      checkLimit st u acc.role = Except.ok () →
      b ∈ st.existingBoards →
      st.subs.any (fun s =>
        s.userId == u && s.board == b && s.subType == t && s.value == v) = true →
      SubscriptionPostgres.create st u b t v = Except.error SubError.alreadyExists) ∧
    (∀ (st : SysState) (u : Nat) (b t v : String),
      st.subs.any (fun s =>
        s.userId == u && s.board == b && s.subType == t && s.value == v) = false →
      createInDB st u b t v
        = Except.ok (⟨nextSubId st.subs, u, b, t, v, true⟩,
            { st with subs := st.subs ++ [⟨nextSubId st.subs, u, b, t, v, true⟩] })) := by
  refine ⟨?_, rfl, ?_, ?_⟩
  · intro st u b t v hdup
    unfold createInDB
    rw [if_pos hdup]
  · intro st u b t v acc hacc hlimit hboard hdup
    have hboard2 : ¬ (b ∉ st.existingBoards) := fun hc => hc hboard
    unfold SubscriptionPostgres.create createInDB
    simp only [hacc, hlimit, if_neg hboard2, hdup, if_true, reduceIte]
  · intro st u b t v hdup
    unfold createInDB
    rw [if_neg (by rw [hdup]; simp)]

/-- Claim C6 witness: re-creating an existing (user, board, kind, value)
is rejected with already-exists, mapped to status 409. -/
theorem C6_witness :
    SubscriptionPostgres.create
      (⟨[⟨1, "u@example.com", "user", true⟩], [], [⟨"user", 3⟩],
        [⟨5, 1, "B", "keyword", "k", true⟩], Stats.empty, ["B"], [], []⟩ : SysState)
      1 "B" "keyword" "k" = Except.error SubError.alreadyExists ∧
    createSubscriptionStatus SubError.alreadyExists = 409 :=
  ⟨C6_duplicate_conflict.2.2.1
      (⟨[⟨1, "u@example.com", "user", true⟩], [], [⟨"user", 3⟩],
        [⟨5, 1, "B", "keyword", "k", true⟩], Stats.empty, ["B"], [], []⟩ : SysState)
      1 "B" "keyword" "k" ⟨1, "u@example.com", "user", true⟩ rfl rfl (by decide) (by decide),
    C6_duplicate_conflict.2.1⟩

/-- Claim C7: the stat counters never become negative: decrementing a
counter at 0 leaves it at 0, and any sequence of Increment and Decrement
operations keeps every count nonnegative (in particular starting from the
empty table). -/
theorem C7_counts_nonneg :
    (∀ st : Stats, (∀ k : StatKey, 0 ≤ st k) →
      ∀ (ops : List StatOp) (k : StatKey), 0 ≤ applyStatOps st ops k) ∧
    (∀ (ops : List StatOp) (k : StatKey), 0 ≤ applyStatOps Stats.empty ops k) ∧
    (∀ (st : Stats) (b t v : String), st (b, t, v) = 0 →
      Stats.decrement st b t v (b, t, v) = 0) := by
  refine ⟨?_, ?_, ?_⟩
  · intro st h ops k
    exact applyStatOps_nonneg ops st h k
  · intro ops k
    exact applyStatOps_nonneg ops Stats.empty (fun _ => Int.le_refl 0) k
  · intro st b t v h
    rw [decrement_apply, if_pos rfl, h]
    decide

/-- Claim C7 witness: decrementing a fresh counter leaves it at 0 and
never below. -/
theorem C7_witness :
    (0 : Int) ≤ applyStatOps Stats.empty
      [StatOp.decOp "B" "keyword" "a", StatOp.decOp "B" "keyword" "a"] ("B", "keyword", "a") ∧
    Stats.decrement Stats.empty "B" "keyword" "a" ("B", "keyword", "a") = 0 ∧
    (0 : Int) ≤ applyStatOps Stats.empty
      [StatOp.incOp "B" "keyword" "a", StatOp.decOp "B" "keyword" "a",
        StatOp.decOp "B" "keyword" "a"] ("B", "keyword", "a") :=
  ⟨C7_counts_nonneg.2.1 _ _,
    C7_counts_nonneg.2.2 Stats.empty "B" "keyword" "a" rfl,
    C7_counts_nonneg.1 Stats.empty (fun _ => Int.le_refl 0) _ _⟩

/-- Claim C8: every state reachable from the empty binding table through
the repository writes keeps at most one row per (user, service) and at
most one per (service, service_id); and a bind-code attempt for a chat
identity already bound to another account returns the conflict message
with the table unchanged. -/
theorem C8_binding_uniqueness :
    (∀ ops : List BindOp, BindingUniq (applyBindOps [] ops)) ∧
    (∀ (bs : List BindingRow) (args : String) (chatId : Int) (now : Nat) (b : BindingRow),
      ¬ trimSpace args = "" →
      findByBindCode bs serviceTelegram (trimSpace args) now = some b →
      b.serviceId = "" →
      (∃ b₂ ∈ bs, b₂.service = serviceTelegram ∧ b₂.serviceId = toString chatId) →
      handleBindCode bs args chatId now = ("此 Telegram 已綁定其他帳號，請先解除綁定", bs)) := by
  constructor
  · intro ops
    exact applyBindOps_preserves [] ops ⟨List.nodup_nil, List.nodup_nil⟩
  · intro bs args chatId now b hne hfind hbid hex
    have hsid2 : ¬ (b.serviceId ≠ "") := fun hc => hc hbid
    unfold handleBindCode
    rw [if_neg hne]
    cases hfs : findByServiceID bs serviceTelegram (toString chatId) with
    | none =>
      exfalso
      unfold findByServiceID at hfs
      obtain ⟨b₂, hb₂, hsvc, hsidb⟩ := hex
      have hnone := List.find?_eq_none.mp hfs b₂ hb₂
      apply hnone
      simp [hsvc, hsidb]
    | some bf =>
      simp only [hfind, hfs, if_neg hsid2]

/-- Claim C8 witness: a pending binding confirmed with a chat id already
bound to a different user yields the conflict message and no change. -/
theorem C8_witness :
    handleBindCode
      [⟨1, "telegram", "123", none, none, true⟩,
        ⟨2, "telegram", "", some "abcd", some 100, false⟩]
      " abcd" 123 50
      = ("此 Telegram 已綁定其他帳號，請先解除綁定",
        [⟨1, "telegram", "123", none, none, true⟩,
          ⟨2, "telegram", "", some "abcd", some 100, false⟩]) :=
  C8_binding_uniqueness.2
    [⟨1, "telegram", "123", none, none, true⟩,
      ⟨2, "telegram", "", some "abcd", some 100, false⟩]
    " abcd" 123 50 ⟨2, "telegram", "", some "abcd", some 100, false⟩
    (by decide) (by decide) rfl
    ⟨⟨1, "telegram", "123", none, none, true⟩, by decide, rfl, by decide⟩

/-- Claim C9 (amended): sendMessage drops a message (no send, counter
unchanged) exactly when the cached profile has an empty Telegram field,
which happens only when no telegram binding with a parsable nonempty
service id was ever synced; a synced profile always has a nonempty
Telegram field, so the message is sent and the counter incremented
regardless of the enabled flag of the binding. -/
theorem C9_dispatch_drop :
    (∀ (p : UserProfile) (n : Nat), p.telegram = "" → sendMessage p n = (false, n)) ∧
    (∀ (p : UserProfile) (n : Nat), ¬ p.telegram = "" → sendMessage p n = (true, n + 1)) ∧
    (∀ (accId : Nat) (bindings : List BindingRow) (p : UserProfile),
      buildUserProfile accId bindings = some p → ¬ p.telegram = "") ∧
    (∀ (accId : Nat) (bindings : List BindingRow),
      findByUserAndService bindings accId "telegram" = none →
      buildUserProfile accId bindings = none) := by
  refine ⟨?_, ?_, ?_, ?_⟩
  · intro p n h
    unfold sendMessage
    rw [if_pos h]
  · intro p n h
    unfold sendMessage
    rw [if_neg h]
    rfl
  · intro accId bindings p h
    unfold buildUserProfile at h
    split at h
    · exact Option.noConfusion h
    · split at h
      · exact Option.noConfusion h
      · split at h
        · exact Option.noConfusion h
        · injection h with h
          rw [← h]
          exact getWebAccount_ne_empty accId
  · intro accId bindings h
    unfold buildUserProfile
    rw [h]

/-- Claim C9 witness: a profile synced from a confirmed binding yields a
send with the counter incremented; an empty profile field yields a drop. -/
theorem C9_witness :
    sendMessage (⟨"web_7", "web_7", 123⟩ : UserProfile) 5 = (true, 6) ∧
    sendMessage (⟨"", "", 0⟩ : UserProfile) 5 = (false, 5) :=
  ⟨C9_dispatch_drop.2.1 (⟨"web_7", "web_7", 123⟩ : UserProfile) 5 (by decide),
    C9_dispatch_drop.1 (⟨"", "", 0⟩ : UserProfile) 5 rfl⟩

/-- Claim C9 counterexample: a disabled telegram binding with a synced
service id still produces a profile with a nonempty Telegram field, so the
message is sent and the counter incremented, contradicting the claim that
a disabled binding suppresses the send. -/
theorem C9_counterexample :
    (⟨7, "telegram", "123", none, none, false⟩ : BindingRow).enabled = false ∧
    buildUserProfile 7 [⟨7, "telegram", "123", none, none, false⟩]
      = some ⟨"web_7", "web_7", 123⟩ ∧
    sendMessage (⟨"web_7", "web_7", 123⟩ : UserProfile) 0 = (true, 1) := by
  decide

/-- Claim C10: a role with no role_limits row gets the default limit 3
with no error (both by role name and through the service-id join, which
also yields 3 for an unbound identity), so an unknown role is limited to 3
rather than rejected. -/
theorem C10_default_limit :
    (∀ (rls : List RoleLimitRow) (role : String),
      rls.find? (fun rl => rl.role == role) = none → getMaxSubscriptions rls role = 3) ∧
    (∀ (bindings : List BindingRow) (users : List AccountRow) (rls : List RoleLimitRow)
        (service serviceId : String),
      bindings.find? (fun bd => bd.service == service && bd.serviceId == serviceId) = none →
      getMaxSubscriptionsByServiceID bindings users rls service serviceId = 3) ∧
    (∀ (st : SysState) (u : Nat) (role : String),
      st.roleLimits.find? (fun rl => rl.role == role) = none →
      ((countByUserID st.subs u : Int) < 3 → checkLimit st u role = Except.ok ()) ∧
      ((countByUserID st.subs u : Int) ≥ 3 →
        checkLimit st u role = Except.error SubError.limitReached)) := by
  refine ⟨?_, ?_, ?_⟩
  · intro rls role h
    unfold getMaxSubscriptions
    rw [h]
  · intro bindings users rls service serviceId h
    unfold getMaxSubscriptionsByServiceID
    rw [h]
  · intro st u role h
    have hmax : getMaxSubscriptions st.roleLimits role = 3 := by
      unfold getMaxSubscriptions
      rw [h]
    constructor
    · intro hlt
      unfold checkLimit
      rw [hmax]
      rw [if_neg (by omega), if_neg (by omega)]
    · intro hge
      unfold checkLimit
      rw [hmax]
      rw [if_neg (by omega), if_pos (by omega)]

/-- Claim C10 witness: with an empty role_limits table, an unknown role
gets limit 3; a user with two subscriptions passes the check and one with
three is rejected. -/
theorem C10_witness :
    getMaxSubscriptions ([] : List RoleLimitRow) "ghost" = 3 ∧
    getMaxSubscriptionsByServiceID ([] : List BindingRow) [] [] "telegram" "42" = 3 ∧
    checkLimit
      (⟨[], [], [], [⟨1, 1, "B", "keyword", "x", true⟩, ⟨2, 1, "B", "keyword", "y", true⟩],
        Stats.empty, [], [], []⟩ : SysState) 1 "ghost" = Except.ok () ∧
    checkLimit
      (⟨[], [], [], [⟨1, 1, "B", "keyword", "x", true⟩, ⟨2, 1, "B", "keyword", "y", true⟩,
        ⟨3, 1, "B", "keyword", "z", true⟩],
        Stats.empty, [], [], []⟩ : SysState) 1 "ghost"
      = Except.error SubError.limitReached :=
  ⟨C10_default_limit.1 [] "ghost" rfl,
    C10_default_limit.2.1 [] [] [] "telegram" "42" rfl,
    (C10_default_limit.2.2
      (⟨[], [], [], [⟨1, 1, "B", "keyword", "x", true⟩, ⟨2, 1, "B", "keyword", "y", true⟩],
        Stats.empty, [], [], []⟩ : SysState) 1 "ghost" rfl).1 (by decide),
    (C10_default_limit.2.2
      (⟨[], [], [], [⟨1, 1, "B", "keyword", "x", true⟩, ⟨2, 1, "B", "keyword", "y", true⟩,
        ⟨3, 1, "B", "keyword", "z", true⟩],
        Stats.empty, [], [], []⟩ : SysState) 1 "ghost" rfl).2 (by decide)⟩

end PttAlertor
